import Mathlib

/-!
Shallow embedding of `Source/ComputationNetworkLib/ComputationNode.cpp`
(CNTK computation-node core): the lazy gradient-zeroing state machine,
the backward-pass error checks, the shape validators for binary/n-ary
zip and binary reduce, the pack/unpack scatter transform, and the
one-sample tensor slicing.  Matrices are modelled at column granularity
(one abstract value per packed column); tensor shapes are lists of
natural numbers; C++ exceptions become an `Except` error monad.
-/

namespace CNTK

/-- The two fatal error kinds thrown by this translation unit
(`LogicError`, `InvalidArgument`), carrying the format-string text. -/
inductive Err where
  | logicError (msg : String)
  | invalidArgument (msg : String)
deriving DecidableEq, Repr

/-- `ParentGradientOptimization` as used by
`ImplementsGradientOptimization` (header enum: `None` or a real
optimization such as overwrite/reuse). -/
inductive ParentGradientOptimization where
  | none
  | overwrite
  | reuse
deriving DecidableEq, Repr

/-- A node gradient buffer: uninitialized, node-owned contents, or
aliased to a parent-owned buffer (identified by the parent id, holding
that buffer's contents).  Contents are one abstract integer per matrix
entry. -/
inductive GradBuffer where
  | uninit
  | own (contents : List Int)
  | aliased (pid : Nat) (contents : List Int)
deriving DecidableEq, Repr

/-- Per-node gradient-relevant state: `m_needsGradient`,
`IsPartOfLoop()`, `m_gradientInitializedBy` (by parent id, `none` =
null pointer), and the gradient buffer. -/
structure NodeState where
  needsGradient : Bool
  isPartOfLoop : Bool
  gradientInitializedBy : Option Nat
  gradient : GradBuffer
deriving DecidableEq, Repr

/-- The data of the requesting parent that `LazyZeroGradient` consults:
its id, its input list (node ids), the result of its
`ImplementsGradientOptimization(this)` query for this child, and the
contents of the parent-owned gradient buffer (`ParentGradientReused()`). -/
structure ParentInfo where
  pid : Nat
  inputs : List Nat
  gradOpt : ParentGradientOptimization
  buffer : List Int
deriving DecidableEq, Repr

/-- `std::count_if(inputs.begin(), inputs.end(), [this](p) ... p == this)`:
how many of the parent's inputs are this very node. -/
def countInputsEq (nodeId : Nat) (inputs : List Nat) : Nat :=
  (inputs.filter (fun p => p == nodeId)).length

/-- `ComputationNode::LazyZeroGradient(gradientInitializedBy)`
(ComputationNode.cpp lines 34-67).  `optFlag` is
`Globals::ShouldOptimizeGradientAccumulation()`, `gradSize` the number
of entries of the resized gradient.  The zeroing branch calls
`ResetGradient(0)` which (header, modelled from the spec: transition to
the `Zeroed` accumulating state on first write) zero-fills the own
buffer and records the node itself as initializer. -/
def lazyZeroGradient (optFlag : Bool) (nodeId : Nat) (node : NodeState)
    (gradientInitializedBy : Option ParentInfo) (gradSize : Nat) :
    Except Err NodeState :=
  if !node.needsGradient then
    .error (.logicError "LazyZeroGradient() called although this node needs no gradient.")
  else
    match gradientInitializedBy with
    | Option.none =>
        .error (.logicError "LazyZeroGradient() called without gradientInitializedBy.")
    | some p =>
        if node.gradientInitializedBy.isSome then
          .ok node
        else if optFlag && !node.isPartOfLoop
            && (p.gradOpt != ParentGradientOptimization.none)
            && (countInputsEq nodeId p.inputs == 1) then
          .ok { node with
                gradient := GradBuffer.aliased p.pid p.buffer,
                gradientInitializedBy := some p.pid }
        else
          .ok { node with
                gradient := GradBuffer.own (List.replicate gradSize 0),
                gradientInitializedBy := some nodeId }

/-- The per-child data `Backprop` consults: `NeedsGradient()` and
`IsPartOfLoop()`. -/
structure ChildInfo where
  needsGradient : Bool
  isPartOfLoop : Bool
deriving DecidableEq, Repr

/-- The child loop of `ComputationNode::Backprop` (ComputationNode.cpp
lines 94-130): for each partition-selected child that needs a gradient,
verify this node needs a gradient and reject a non-whole-batch
loop-to-non-loop propagation; the numeric `BackpropTo` call is out of
scope of the checks. -/
def backpropChildLoop (frIsAllFrames : Bool)
    (childrenInThisLoop childrenInOuterLoop : Bool)
    (needsGradient isPartOfLoop : Bool) : List ChildInfo → Except Err Unit
  | [] => .ok ()
  | child :: rest =>
    if child.needsGradient &&
        ((childrenInThisLoop && (child.isPartOfLoop == isPartOfLoop)) ||
         (childrenInOuterLoop && (child.isPartOfLoop != isPartOfLoop))) then
      if !needsGradient then
        .error (.logicError "operation has m_needsGradient set to false but children require it.")
      else if isPartOfLoop && !child.isPartOfLoop && !frIsAllFrames then
        .error (.logicError "Backprop: Inefficiency: operation in loop propagates gradient to non-loop node")
      else
        backpropChildLoop frIsAllFrames childrenInThisLoop
          childrenInOuterLoop needsGradient isPartOfLoop rest
    else
      backpropChildLoop frIsAllFrames childrenInThisLoop
        childrenInOuterLoop needsGradient isPartOfLoop rest

/-- The message of the whole-batch-on-loop-node rejection
(ComputationNode.cpp line 92). -/
def wholeBatchLoopMsg : String :=
  "Backprop called with whole-batch FrameRange on node that participates in a loop"

/-- The error-check skeleton of
`ComputationNode::Backprop(fr, childrenInThisLoop, childrenInOuterLoop)`
(ComputationNode.cpp lines 70-131), for a node with flags
`needsGradient`/`isPartOfLoop` and the given children.  `frIsAllFrames`
is `fr.IsAllFrames()`.  The function returns the first fatal error
raised, or `()`.  The initial `LazyZeroGradient(this)` call cannot fail
(it is guarded by `m_needsGradient` and passes a non-null parent) and
is state-only, so it does not appear in the error skeleton. -/
def backpropChecks (frIsAllFrames : Bool)
    (childrenInThisLoop childrenInOuterLoop : Bool)
    (needsGradient isPartOfLoop : Bool) (children : List ChildInfo) :
    Except Err Unit :=
  if frIsAllFrames && isPartOfLoop && childrenInThisLoop then
    .error (.logicError wholeBatchLoopMsg)
  else
    backpropChildLoop frIsAllFrames childrenInThisLoop childrenInOuterLoop
      needsGradient isPartOfLoop children

/-- An input node as seen by the zip validators: its sample shape
(`GetInputSampleLayout`) and the identity of its `MBLayout` (layouts
compare by pointer/reference, modelled as a `Nat` tag; `none` = no
layout).  Inputs are modelled as non-learnable nodes, for which
`ValidateInferInputDimsFrom` (ComputationNode.cpp lines 548-555) is the
identity: the `dynamic_cast` to `LearnableParameter` fails. -/
structure VInput where
  shape : List Nat
  layout : Option Nat
deriving DecidableEq, Repr

/-- The dynamic-axes-mismatch reminder printed by `ValidateMBLayout`
(ComputationNode.cpp lines 306-307). -/
def axesMismatchWarning : String :=
  "WARNING: Dynamic axes mismatch. If they are incompatible, this will fail later."

/-- `ComputationNodeBase::ValidateMBLayout(which, vsWhich)`
(ComputationNode.cpp lines 292-310).  The hard `RuntimeError` branch is
compiled out; on a mismatch the function only prints a warning when the
environment trace level is positive, and always returns.  Returned:
the warnings emitted. -/
def validateMBLayout (traceLevel : Nat) (which vsWhich : Option Nat) :
    List String :=
  if which.isNone || vsWhich.isNone || which == vsWhich then []
  else if traceLevel > 0 then [axesMismatchWarning]
  else []

/-- `ComputationNodeBase::InferMBLayoutFromInputsForStandardCase`
(ComputationNode.cpp lines 318-334): remember the first input carrying
a layout; on the final pass compare every later layout-carrying input
against it (warning only); install the first layout found. -/
def inferMBLayoutStandard (final : Bool) (traceLevel : Nat)
    (inputs : List VInput) : Option Nat × List String :=
  inputs.foldl
    (fun acc input =>
      match input.layout with
      | Option.none => acc
      | some l =>
        match acc.1 with
        | Option.none => (some l, acc.2)
        | some f =>
          if final then
            (some f, acc.2 ++ validateMBLayout traceLevel (some f) (some l))
          else (some f, acc.2))
    (Option.none, [])

/-- The dimension-incompatibility message of the zip validators
(ComputationNode.cpp lines 377 and 430). -/
def dimsIncompatibleMsg : String := "Input dimensions are not compatible."

/-- One iteration of the dimension loop of `ValidateBinaryZip`
(ComputationNode.cpp lines 368-379), on the current output dimension
`dk` (= `dims[k]`) and the second shape dimension `dim1`. -/
def zipDimStep (final : Bool) (dk dim1 : Nat) : Except Err Nat :=
  if dk ≤ 1 ∧ dim1 ≠ 0 then .ok dim1
  else if dim1 ≤ 1 ∧ dk ≠ 0 then .ok dk
  else if final ∧ dim1 ≠ dk then
    .error (.invalidArgument dimsIncompatibleMsg)
  else .ok dk

/-- The dimension loop of `ValidateBinaryZip`: walk `shape1` against the
already-padded output dimension vector; dimensions of the output beyond
the rank of `shape1` are kept unchanged. -/
def binaryZipDimsLoop (final : Bool) :
    List Nat → List Nat → Except Err (List Nat)
  | dims, [] => .ok dims
  | [], _ :: _ => .ok []
  | dk :: dims, d1 :: rest => do
    let d ← zipDimStep final dk d1
    let ds ← binaryZipDimsLoop final dims rest
    pure (d :: ds)

/-- `dims.resize(rank, 1)` when `rank` exceeds the current length:
pad with trailing singleton dimensions. -/
def padWithOnes (dims : List Nat) (rank : Nat) : List Nat :=
  if rank > dims.length then dims ++ List.replicate (rank - dims.length) 1
  else dims

/-- The output-shape computation of `ValidateBinaryZip`
(ComputationNode.cpp lines 359-379): pad `shape0` with ones to the rank
of `shape1` if lower, then run the dimension loop. -/
def binaryZipDims (final : Bool) (shape0 shape1 : List Nat) :
    Except Err (List Nat) :=
  binaryZipDimsLoop final (padWithOnes shape0 shape1.length) shape1

/-- Result of a zip validation: the inferred output dimensions, the
installed output layout, and the warnings emitted along the way. -/
structure ValResult where
  dims : List Nat
  layout : Option Nat
  warnings : List String
deriving DecidableEq, Repr

/-- `ComputationNodeBase::ValidateBinaryZip` (ComputationNode.cpp lines
348-382): infer the layout for the standard case, (identity) input-dim
inference, on the final pass compare the two input layouts (warning
only), then compute the broadcast output shape. -/
def validateBinaryZip (final : Bool) (traceLevel : Nat)
    (in0 in1 : VInput) : Except Err ValResult := do
  let layAndWarns := inferMBLayoutStandard final traceLevel [in0, in1]
  let warns2 := if final then validateMBLayout traceLevel in0.layout in1.layout
                else []
  let dims ← binaryZipDims final in0.shape in1.shape
  pure { dims := dims, layout := layAndWarns.1,
         warnings := layAndWarns.2 ++ warns2 }

/-- One input of the first (conflict-detecting) dimension loop of
`ValidateNaryZip` (ComputationNode.cpp lines 420-438) at dimension
index `k`: inputs whose rank does not reach `k` are implied singletons;
a concrete dimension conflicting with the concrete running maximum
raises `InvalidArgument`; otherwise the running maximum grows. -/
def naryCheckStep (k : Nat) (maxDim : Nat) (shape : List Nat) :
    Except Err Nat :=
  if k < shape.length then
    if shape.getD k 0 > 1 ∧ maxDim ≠ shape.getD k 0 ∧ maxDim > 1 then
      .error (.invalidArgument dimsIncompatibleMsg)
    else if shape.getD k 0 > maxDim then pure (shape.getD k 0)
    else pure maxDim
  else pure maxDim

/-- The first (conflict-detecting) dimension loop of `ValidateNaryZip`
(ComputationNode.cpp lines 416-440) at dimension index `k`.  Note: the
loop is NOT guarded by `isFinalValidationPass`. -/
def naryDimCheckFold (k : Nat) (shapes : List (List Nat)) : Except Err Nat :=
  shapes.foldlM (naryCheckStep k) 0

/-- The second dimension loop of `ValidateNaryZip` (ComputationNode.cpp
lines 443-456) at index `k`: starting from the padded `shape0`
dimension, take each input dimension when the current value is still
broadcasting/unspecified. -/
def narySetDimAt (k : Nat) (init : Nat) (shapes : List (List Nat)) : Nat :=
  shapes.foldl
    (fun dk shape =>
      if k < shape.length then
        let dim := shape.getD k 0
        if dk ≤ 1 ∧ dim ≠ 0 then dim else dk
      else dk)
    init

/-- The pairwise layout consistency check of `ValidateNaryZip`
(ComputationNode.cpp lines 396-399), over all pairs `i < j`
(warnings only). -/
def naryPairwiseWarnings (traceLevel : Nat) : List VInput → List String
  | [] => []
  | x :: rest =>
    (rest.map (fun y => validateMBLayout traceLevel x.layout y.layout)).flatten
      ++ naryPairwiseWarnings traceLevel rest

/-- `ComputationNodeBase::ValidateNaryZip` (ComputationNode.cpp lines
387-459): layout inference, pairwise layout warnings on the final pass,
the unconditional dimension-conflict check, then the max-dimension
output shape. -/
def validateNaryZip (final : Bool) (traceLevel : Nat)
    (inputs : List VInput) : Except Err ValResult := do
  let layAndWarns := inferMBLayoutStandard final traceLevel inputs
  let pairWarns := if final then naryPairwiseWarnings traceLevel inputs else []
  let shapes := inputs.map (fun i => i.shape)
  let shape0 := shapes.headD []
  let maxRank := shapes.foldl (fun m s => max m s.length) 0
  let _ ← (List.range maxRank).mapM (fun k => naryDimCheckFold k shapes)
  let initDims := padWithOnes shape0 maxRank
  let dims := (List.range maxRank).map
    (fun k => narySetDimAt k (initDims.getD k 1) shapes)
  pure { dims := dims, layout := layAndWarns.1,
         warnings := layAndWarns.2 ++ pairWarns }

/-- An input node as seen by `ValidateBinaryReduce`: sample shape,
whether it carries an `MBLayout`, and its operation name (consulted by
the distributed opt-out). -/
structure RInput where
  shape : List Nat
  hasLayout : Bool
  opName : String
deriving DecidableEq, Repr

/-- Modelled from the spec: `TensorShape::IsElementwiseCompatibleWith`
(header, not in src): the two inputs must have equal sample shapes,
i.e. describe the same number of elements. -/
def elementwiseCompatible (a b : List Nat) : Bool :=
  a.prod == b.prod

/-- Modelled from the spec: `TensorShape::Scalar(isV2)` (header): a
scalar-shaped tensor (rank 0 for the V2 library, `[1]` otherwise). -/
def scalarShape (isV2 : Bool) : List Nat := if isV2 then [] else [1]

/-- Result of a reduce validation: output dimensions and whether the
output carries a minibatch layout. -/
structure RResult where
  dims : List Nat
  hasLayout : Bool
deriving DecidableEq, Repr

/-- The operation names exempted from the binary-reduce shape check
(ComputationNode.cpp lines 485-486). -/
def distOptOutNames : List String :=
  ["DistributedFullyConnected_v2", "DistributedAdditiveFullConnection"]

/-- The shape-mismatch message of `ValidateBinaryReduce`
(ComputationNode.cpp line 491) — raised as a `LogicError`. -/
def reduceDimsMismatchMsg : String :=
  "The tensor dimensions in the inputs do not match."

/-- The final-pass checks of `ComputationNodeBase::ValidateBinaryReduce`
(ComputationNode.cpp lines 480-499): a sample-shape mismatch outside
the distributed opt-out raises `LogicError`; only when the shapes are
compatible, a missing input layout raises `LogicError`. -/
def binaryReduceCheck (in0 in1 : RInput) : Except Err Unit :=
  if !(elementwiseCompatible in0.shape in1.shape) then
    if in0.opName ∉ distOptOutNames ∧ in1.opName ∉ distOptOutNames then
      .error (.logicError reduceDimsMismatchMsg)
    else
      .ok ()
  else if !in0.hasLayout then
    .error (.logicError "Expected MBLayout in Input 0.")
  else if !in1.hasLayout then
    .error (.logicError "Expected MBLayout in Input 1.")
  else
    .ok ()

/-- `ComputationNodeBase::ValidateBinaryReduce` (ComputationNode.cpp
lines 474-501): the output holds no minibatch data; the final-pass
checks run, and the output is a scalar with no layout. -/
def validateBinaryReduce (final : Bool) (isV2 : Bool)
    (in0 in1 : RInput) : Except Err RResult := do
  if final then binaryReduceCheck in0 in1 else pure ()
  pure { dims := scalarShape isV2, hasLayout := false }

/-- One sequence descriptor of the minibatch sequence table:
`{seqId, s, tBegin, tEnd}`; `seqId = none` models `GAP_SEQUENCE_ID`. -/
structure SeqInfo where
  seqId : Option Nat
  s : Nat
  tBegin : Int
  tEnd : Nat
deriving DecidableEq, Repr

/-- A minibatch layout: number of time steps, number of parallel
sequence slots, and the sequence table. -/
structure MBLayoutM where
  numTimeSteps : Nat
  numParallelSequences : Nat
  sequences : List SeqInfo
deriving DecidableEq, Repr

/-- `MBLayout::GetNumSequences()`: the number of real (non-gap)
entries of the sequence table. -/
def MBLayoutM.numSequences (l : MBLayoutM) : Nat :=
  (l.sequences.filter (fun sq => sq.seqId.isSome)).length

/-- `MBLayout::GetNumCols()`: number of packed columns,
`numParallelSequences * numTimeSteps`. -/
def MBLayoutM.numCols (l : MBLayoutM) : Nat :=
  l.numParallelSequences * l.numTimeSteps

/-- The fast-path test of `ComputationNode::Unpack`
(ComputationNode.cpp line 156): no scatter is needed when there is at
most one time step, at most one sequence, or (batch-major) every
parallel slot holds exactly one sequence. -/
def unpackUsesFastPath (l : MBLayoutM) (batchMajor : Bool) : Bool :=
  l.numTimeSteps == 1 || l.numSequences == 1 ||
    (batchMajor && (l.numParallelSequences == l.numSequences))

/-- The per-sequence body of the scatter-index loop of `Unpack`
(ComputationNode.cpp lines 180-204), threading
`(scatterIndicesVector, columnsValidityMask, i)`:  for a non-gap
sequence, packed column `(tBegin+j)*P + s` scatters to destination
column `targetIdx` for each in-range `j`, and out-of-range `j` mark the
destination as a gap in the validity mask. -/
def applySeqScatter (T P numSeq : Nat) (batchMajor : Bool)
    (acc : List (Option Nat) × List Bool × Nat) (sq : SeqInfo) :
    List (Option Nat) × List Bool × Nat :=
  match sq.seqId with
  | Option.none => acc
  | some _ =>
    let i := acc.2.2
    let b := sq.tBegin.toNat
    let e := min T sq.tEnd
    let len := e - b
    let idxMask := (List.range T).foldl
      (fun (p : List (Option Nat) × List Bool) j =>
        let targetIdx := if batchMajor then j * numSeq + i else i * T + j
        if j < len then (p.1.set ((b + j) * P + sq.s) (some targetIdx), p.2)
        else (p.1, p.2.set targetIdx false))
      (acc.1, acc.2.1)
    (idxMask.1, idxMask.2, i + 1)

/-- The scatter-index and validity-mask construction of `Unpack`
(ComputationNode.cpp lines 173-204): indices start at `-1` (`none`),
the mask starts all-valid, and the sequence table is walked in order
with `i` counting the non-gap sequences. -/
def buildScatterIndices (l : MBLayoutM) (batchMajor : Bool) :
    List (Option Nat) × List Bool :=
  let r := l.sequences.foldl
    (applySeqScatter l.numTimeSteps l.numParallelSequences l.numSequences
      batchMajor)
    (List.replicate l.numCols Option.none,
     List.replicate (l.numSequences * l.numTimeSteps) true, 0)
  (r.1, r.2.1)

/-- The live (non-gap) entries of the sequence table, in the order the
scatter loop of `Unpack` visits them (counted by its `i`). -/
def liveSeqs (l : MBLayoutM) : List SeqInfo :=
  l.sequences.filter (fun sq => sq.seqId.isSome)

/-- The clamped in-minibatch length of a sequence
(`currentSequenceEndIdx - currentSequenceBeginIdx` in `Unpack`,
ComputationNode.cpp lines 186-188). -/
def seqLen (T : Nat) (sq : SeqInfo) : Nat :=
  min T sq.tEnd - sq.tBegin.toNat

/-- The packed source column holding time step `j` of a sequence:
`(currentSequenceBeginIdx + j) * numParallelSequences + s`
(ComputationNode.cpp line 194). -/
def seqSourceCol (P : Nat) (sq : SeqInfo) (j : Nat) : Nat :=
  (sq.tBegin.toNat + j) * P + sq.s

/-- The destination column `targetIdx` of the `i`-th live sequence at
time step `j`: `j * numSequences + i` batch-major, `i * T + j`
sequence-major (ComputationNode.cpp line 192). -/
def seqTargetCol (T N : Nat) (bm : Bool) (i j : Nat) : Nat :=
  if bm then j * N + i else i * T + j

/-- The body of the inner `for j` loop of the scatter-index
construction (ComputationNode.cpp lines 190-200) for the `i`-th live
sequence, as a named function — definitionally the lambda inside
`applySeqScatter`. -/
def innerScatterStep (T P N : Nat) (bm : Bool) (i len : Nat)
    (sq : SeqInfo) (p : List (Option Nat) × List Bool) (j : Nat) :
    List (Option Nat) × List Bool :=
  if j < len then
    (p.1.set (seqSourceCol P sq j) (some (seqTargetCol T N bm i j)), p.2)
  else
    (p.1, p.2.set (seqTargetCol T N bm i j) false)

/-- `Matrix::DoScatterColumnsOf(0, idx, src, 1, idxHaveDups = false)`
at column granularity (one abstract value per column): the destination
is zero-filled (`beta = 0`), then every source column with a set index
lands at its destination column. -/
def scatterColumns {α : Type} [DecidableEq α] (numDestCols : Nat)
    (indices : List (Option Nat)) (src : List α) (zero : α) : List α :=
  (List.range numDestCols).map (fun d =>
    match indices.findIdx? (fun oi => oi == some d) with
    | some k => src.getD k zero
    | Option.none => zero)

/-- `Matrix::MaskColumnsValue(mask, v, 1)` at column granularity:
columns whose mask entry is cleared are set to `v`. -/
def maskColumns {α : Type} (mask : List Bool) (v : α) (cols : List α) :
    List α :=
  (List.range cols.length).map (fun d =>
    if mask.getD d true then cols.getD d v else v)

/-- The general (scatter) path of `ComputationNode::Unpack`
(ComputationNode.cpp lines 162-230) at column granularity: build the
scatter indices and validity mask, scatter the packed columns into a
fresh `numTimeSteps * numSequences`-column destination (zero-filled by
`beta = 0`), and when a non-zero gap-pad value is supplied, mask the
never-targeted destination columns to that value. -/
def unpackGeneral {α : Type} [DecidableEq α] (l : MBLayoutM)
    (batchMajor : Bool) (packed : List α) (zero : α)
    (gapPadValue : Option α) : List α :=
  let im := buildScatterIndices l batchMajor
  let dest := scatterColumns (l.numTimeSteps * l.numSequences) im.1 packed zero
  match gapPadValue with
  | some v => if v ≠ zero then maskColumns im.2 v dest else dest
  | Option.none => dest

/-- The layout of the gap-masking example: two sequences of lengths 3
and 2 packed into 2 parallel slots over 3 time steps; the single gap
cell is slot 1, time 2. -/
def twoSeqLayout : MBLayoutM :=
  { numTimeSteps := 3, numParallelSequences := 2,
    sequences := [⟨some 0, 0, 0, 3⟩, ⟨some 1, 1, 0, 2⟩] }

/-- A frame range as far as shape slicing is concerned: whole batch or
a window of `timeRange` steps, optionally restricted to one sequence. -/
structure FrameRangeM where
  isAllFrames : Bool
  timeRange : Nat
  seqIndex : Option Nat
deriving DecidableEq, Repr

/-- Modelled from the spec: `FrameRange::IsOneColumnWrt(layout)`
(header, not in src): the frame range denotes exactly one packed column
of the layout — one sequence and one time step.  Without a layout
everything is one column; with a layout either the whole tensor is a
single column (1 x 1), or the range is one time step of one sequence
(explicitly selected, or there is only one parallel slot). -/
def FrameRangeM.isOneColumnWrt (fr : FrameRangeM)
    (layout : Option MBLayoutM) : Bool :=
  match layout with
  | Option.none => true
  | some l =>
    (l.numTimeSteps == 1 && l.numParallelSequences == 1) ||
    (!fr.isAllFrames && fr.timeRange == 1 &&
      (fr.seqIndex.isSome || l.numParallelSequences == 1))

/-- A node as seen by the tensor slicers: its sample shape and optional
layout. -/
structure SliceNode where
  sampleShape : List Nat
  layout : Option MBLayoutM
deriving DecidableEq, Repr

/-- `ComputationNodeBase::GetTensorShape(rank)` (ComputationNode.cpp
lines 578-589): the sample shape; when a layout is present it is padded
with singletons to `rank` and extended with the parallel-sequence and
time axes (`AppendInPlace`). -/
def getTensorShape (node : SliceNode) (rank : Nat) : List Nat :=
  match node.layout with
  | Option.none => node.sampleShape
  | some l =>
    padWithOnes node.sampleShape rank ++
      [l.numParallelSequences, l.numTimeSteps]

/-- `ComputationNodeBase::GetTensorSliceFor(rank, fr)`
(ComputationNode.cpp lines 593-608), with the narrowing helper
`TensorSliceWithMBLayoutFor` modelled from the spec: the slice keeps
the sample dimensions and narrows the trailing sequence and time axes
to the window addressed by `fr` (a selected single sequence narrows the
sequence axis to 1; a non-whole-batch window narrows the time axis to
its length). -/
def getTensorSliceFor (node : SliceNode) (rank : Nat) (fr : FrameRangeM) :
    List Nat :=
  match node.layout with
  | Option.none => node.sampleShape
  | some l =>
    padWithOnes node.sampleShape rank ++
      [if fr.seqIndex.isSome then 1 else l.numParallelSequences,
       if fr.isAllFrames then l.numTimeSteps else fr.timeRange]

/-- Modelled from the spec: `TensorShape::TrimRankInPlace(rank)`
(header, not in src): strip the trailing axes beyond `rank` — the
appended sequence/time axes, which a one-column slice has reduced to
`[1 x 1]`. -/
def trimRank (rank : Nat) (dims : List Nat) : List Nat := dims.take rank

/-- The rejection message of `GetOneSampleTensorSliceFor`
(ComputationNode.cpp line 618). -/
def oneSampleMsg : String :=
  "GetOneSampleTensorSliceFor: Requires fr to refer to a single sample."

/-- `ComputationNodeBase::GetOneSampleTensorSliceFor(rank, fr)`
(ComputationNode.cpp lines 613-622): compute the slice, fail with
`LogicError` unless `fr` refers to a single column, and with a layout
present strip the trailing sequence/time axes. -/
def getOneSampleTensorSliceFor (node : SliceNode) (rank : Nat)
    (fr : FrameRangeM) : Except Err (List Nat) :=
  let result := getTensorSliceFor node rank fr
  if !(fr.isOneColumnWrt node.layout) then
    .error (.logicError oneSampleMsg)
  else if node.layout.isSome then
    .ok (trimRank rank result)
  else
    .ok result

/-!
### Theorems
-/


/-- Helper: `LazyZeroGradient` on the first call for a node that needs
a gradient reduces to the eligibility test between the aliasing and the
zeroing branch. -/
theorem lazyZeroGradient_first_eq (optFlag : Bool) (nodeId : Nat)
    (node : NodeState) (p : ParentInfo) (gradSize : Nat)
    (hng : node.needsGradient = true)
    (hfirst : node.gradientInitializedBy = Option.none) :
    lazyZeroGradient optFlag nodeId node (some p) gradSize =
      if optFlag && !node.isPartOfLoop
          && (p.gradOpt != ParentGradientOptimization.none)
          && (countInputsEq nodeId p.inputs == 1) then
        .ok { node with
              gradient := GradBuffer.aliased p.pid p.buffer,
              gradientInitializedBy := some p.pid }
      else
        .ok { node with
              gradient := GradBuffer.own (List.replicate gradSize 0),
              gradientInitializedBy := some nodeId } := by
  simp [lazyZeroGradient, hng, hfirst]

/-- C1: on the first `LazyZeroGradient` call by a parent on a node that
needs a gradient, the gradient buffer becomes an alias of the
parent-owned buffer if and only if the global gradient-accumulation
optimization flag is enabled, the node is not part of a loop, the
parent's `ImplementsGradientOptimization` query for this node is not
`None`, and the parent's input list references this node exactly once;
when any condition fails, the node's own gradient buffer is resized and
zero-filled instead. -/
theorem lazyZeroGradient_aliases_iff (optFlag : Bool) (nodeId : Nat)
    (node : NodeState) (p : ParentInfo) (gradSize : Nat)
    (hng : node.needsGradient = true)
    (hfirst : node.gradientInitializedBy = Option.none) :
    ∃ nodeAfter,
      lazyZeroGradient optFlag nodeId node (some p) gradSize
        = .ok nodeAfter ∧
      (nodeAfter.gradient = GradBuffer.aliased p.pid p.buffer ↔
        (optFlag = true ∧ node.isPartOfLoop = false ∧
         p.gradOpt ≠ ParentGradientOptimization.none ∧
         countInputsEq nodeId p.inputs = 1)) ∧
      (¬(optFlag = true ∧ node.isPartOfLoop = false ∧
         p.gradOpt ≠ ParentGradientOptimization.none ∧
         countInputsEq nodeId p.inputs = 1) →
        nodeAfter.gradient = GradBuffer.own (List.replicate gradSize 0)) := by
  rw [lazyZeroGradient_first_eq optFlag nodeId node p gradSize hng hfirst]
  by_cases hC : (optFlag && !node.isPartOfLoop
      && (p.gradOpt != ParentGradientOptimization.none)
      && (countInputsEq nodeId p.inputs == 1)) = true
  · rw [if_pos hC]
    simp only [Bool.and_eq_true, Bool.not_eq_true', bne_iff_ne,
      beq_iff_eq] at hC
    obtain ⟨⟨⟨h1, h2⟩, h3⟩, h4⟩ := hC
    refine ⟨{ node with
              gradient := GradBuffer.aliased p.pid p.buffer,
              gradientInitializedBy := some p.pid }, rfl, ?_, ?_⟩
    · exact ⟨fun _ => ⟨h1, h2, h3, h4⟩, fun _ => rfl⟩
    · intro hn
      exact absurd ⟨h1, h2, h3, h4⟩ hn
  · rw [if_neg hC]
    refine ⟨{ node with
              gradient := GradBuffer.own (List.replicate gradSize 0),
              gradientInitializedBy := some nodeId }, rfl, ?_, fun _ => rfl⟩
    constructor
    · intro h
      exact absurd h (by simp)
    · intro h
      exfalso
      apply hC
      simp [h.1, h.2.1, h.2.2.1, h.2.2.2]

/-- Witness for C1: a node consumed exactly once by an
optimization-supporting parent outside a loop. -/
theorem lazyZeroGradient_aliases_iff_witness :
    ∃ nodeAfter,
      lazyZeroGradient true 5
          ⟨true, false, Option.none, GradBuffer.uninit⟩
          (some ⟨9, [5, 7], ParentGradientOptimization.reuse, [3, 4]⟩) 2
        = .ok nodeAfter ∧
      (nodeAfter.gradient = GradBuffer.aliased 9 [3, 4] ↔
        (true = true ∧ false = false ∧
         ParentGradientOptimization.reuse ≠ ParentGradientOptimization.none ∧
         countInputsEq 5 [5, 7] = 1)) ∧
      (¬(true = true ∧ false = false ∧
         ParentGradientOptimization.reuse ≠ ParentGradientOptimization.none ∧
         countInputsEq 5 [5, 7] = 1) →
        nodeAfter.gradient = GradBuffer.own (List.replicate 2 0)) := by
  exact lazyZeroGradient_aliases_iff true 5
    ⟨true, false, Option.none, GradBuffer.uninit⟩
    ⟨9, [5, 7], ParentGradientOptimization.reuse, [3, 4]⟩ 2 rfl rfl

/-- C6: calling `LazyZeroGradient` again on an already-initialized node
(with any non-null parent) is a no-op: the full node state —
initializing parent, aliased/own status, and buffer contents — is
returned unchanged. -/
theorem lazyZeroGradient_second_call_noop (optFlag : Bool) (nodeId : Nat)
    (node : NodeState) (p : ParentInfo) (gradSize : Nat) (q : Nat)
    (hng : node.needsGradient = true)
    (hinit : node.gradientInitializedBy = some q) :
    lazyZeroGradient optFlag nodeId node (some p) gradSize = .ok node := by
  simp [lazyZeroGradient, hng, hinit]

/-- Witness for C6: a second call on an aliased node returns it
unchanged. -/
theorem lazyZeroGradient_second_call_noop_witness :
    lazyZeroGradient true 5
        ⟨true, false, some 9, GradBuffer.aliased 9 [3, 4]⟩
        (some ⟨11, [5], ParentGradientOptimization.overwrite, [8]⟩) 2
      = .ok ⟨true, false, some 9, GradBuffer.aliased 9 [3, 4]⟩ := by
  exact lazyZeroGradient_second_call_noop true 5
    ⟨true, false, some 9, GradBuffer.aliased 9 [3, 4]⟩
    ⟨11, [5], ParentGradientOptimization.overwrite, [8]⟩ 2 9 rfl rfl

/-- C10: on the aliasing path of `LazyZeroGradient` the gradient is
never zero-filled — the resulting buffer is exactly the parent-owned
buffer with whatever contents it holds (`ResetGradient(0)` runs only on
the non-aliased branch), so the first parent write must overwrite it. -/
theorem lazyZeroGradient_alias_keeps_parent_contents (optFlag : Bool)
    (nodeId : Nat) (node : NodeState) (p : ParentInfo) (gradSize : Nat)
    (hng : node.needsGradient = true)
    (hfirst : node.gradientInitializedBy = Option.none)
    (hflag : optFlag = true) (hloop : node.isPartOfLoop = false)
    (hopt : p.gradOpt ≠ ParentGradientOptimization.none)
    (hcount : countInputsEq nodeId p.inputs = 1) :
    lazyZeroGradient optFlag nodeId node (some p) gradSize =
      .ok { node with
            gradient := GradBuffer.aliased p.pid p.buffer,
            gradientInitializedBy := some p.pid } := by
  rw [lazyZeroGradient_first_eq optFlag nodeId node p gradSize hng hfirst,
    if_pos]
  simp [hflag, hloop, hopt, hcount]

/-- Witness for C10: aliasing with a non-zero parent buffer leaves the
non-zero contents in place. -/
theorem lazyZeroGradient_alias_keeps_parent_contents_witness :
    lazyZeroGradient true 5
        ⟨true, false, Option.none, GradBuffer.uninit⟩
        (some ⟨9, [5, 7], ParentGradientOptimization.reuse, [3, 4]⟩) 2
      = .ok ⟨true, false, some 9, GradBuffer.aliased 9 [3, 4]⟩ := by
  exact lazyZeroGradient_alias_keeps_parent_contents true 5
    ⟨true, false, Option.none, GradBuffer.uninit⟩
    ⟨9, [5, 7], ParentGradientOptimization.reuse, [3, 4]⟩ 2
    rfl rfl rfl rfl (by decide) rfl

/-- C2: `Backprop` with a whole-batch frame range on a loop node with
`childrenInThisLoop` raises the whole-batch `LogicError`; with a
per-time-step frame range that error is never raised, for any node and
children. -/
theorem backprop_wholebatch_loop (childrenInOuterLoop needsGradient : Bool)
    (children : List ChildInfo) :
    backpropChecks true true childrenInOuterLoop needsGradient true children
      = .error (.logicError wholeBatchLoopMsg) ∧
    ∀ (cThis cOuter ng loop : Bool) (cs : List ChildInfo),
      backpropChecks false cThis cOuter ng loop cs
        ≠ .error (.logicError wholeBatchLoopMsg) := by
  constructor
  · rfl
  · intro cThis cOuter ng loop cs
    show backpropChildLoop false cThis cOuter ng loop cs
      ≠ .error (.logicError wholeBatchLoopMsg)
    induction cs with
    | nil =>
      intro h
      exact Except.noConfusion h
    | cons c rest ih =>
      simp only [backpropChildLoop]
      split
      · split
        · intro h
          injection h with h
          injection h with h
          simp [wholeBatchLoopMsg] at h
        · split
          · intro h
            injection h with h
            injection h with h
            simp [wholeBatchLoopMsg] at h
          · exact ih
      · exact ih

/-- Witness for C2: a loop node with one loop child errors on the
whole batch and does not raise that error per time step. -/
theorem backprop_wholebatch_loop_witness :
    backpropChecks true true false true true [⟨true, true⟩]
      = .error (.logicError wholeBatchLoopMsg) ∧
    backpropChecks false true false true true [⟨true, true⟩]
      ≠ .error (.logicError wholeBatchLoopMsg) :=
  ⟨(backprop_wholebatch_loop false true [⟨true, true⟩]).1,
   (backprop_wholebatch_loop false true [⟨true, true⟩]).2
     true false true true [⟨true, true⟩]⟩


/-- Counterexample to C3: on the final validation pass, a binary zip of
two inputs with present but different minibatch layouts does NOT fail —
validation succeeds, merely emitting the dynamic-axes-mismatch warning
twice (the hard-error branch of `ValidateMBLayout` is compiled out). -/
theorem validateBinaryZip_layout_mismatch_no_error :
    validateBinaryZip true 1 ⟨[2], some 0⟩ ⟨[2], some 1⟩
      = .ok { dims := [2], layout := some 0,
              warnings := [axesMismatchWarning, axesMismatchWarning] } := by
  rfl

/-- C3 (amended): on the final validation pass, two present but
non-identical input layouts of a binary zip produce only warnings (one
from layout inference, one from the explicit pairwise check, given a
positive trace level) and validation succeeds with the inferred
dimensions. -/
theorem validateBinaryZip_layout_mismatch_warns (tl : Nat)
    (in0 in1 : VInput) (l0 l1 : Nat)
    (h0 : in0.layout = some l0) (h1 : in1.layout = some l1)
    (hne : l0 ≠ l1) (htl : 0 < tl) (dims : List Nat)
    (hdims : binaryZipDims true in0.shape in1.shape = .ok dims) :
    validateBinaryZip true tl in0 in1 =
      .ok { dims := dims, layout := some l0,
            warnings := [axesMismatchWarning, axesMismatchWarning] } := by
  simp [validateBinaryZip, inferMBLayoutStandard, validateMBLayout,
    h0, h1, hne, htl, hdims]

/-- Witness for the amended C3. -/
theorem validateBinaryZip_layout_mismatch_warns_witness :
    validateBinaryZip true 1 ⟨[2], some 0⟩ ⟨[2], some 1⟩ =
      .ok { dims := [2], layout := some 0,
            warnings := [axesMismatchWarning, axesMismatchWarning] } := by
  exact validateBinaryZip_layout_mismatch_warns 1 ⟨[2], some 0⟩
    ⟨[2], some 1⟩ 0 1 rfl rfl (by decide) (by decide) [2] rfl

/-- C4: binary zip broadcasting — `[4,1]` with `[1,3]` yields `[4,3]`;
`[4,2]` with `[4,3]` raises `InvalidArgument` on the final pass and is
tolerated on non-final passes; the lower-rank shape is padded with
trailing singletons; per dimension a 0/1 side takes the concrete other
side. -/
theorem binaryZip_broadcast_shapes :
    binaryZipDims true [4, 1] [1, 3] = .ok [4, 3] ∧
    binaryZipDims true [4, 2] [4, 3]
      = .error (.invalidArgument dimsIncompatibleMsg) ∧
    binaryZipDims false [4, 2] [4, 3] = .ok [4, 2] ∧
    padWithOnes [4] 2 = [4, 1] ∧
    binaryZipDims true [4] [4, 3] = .ok [4, 3] ∧
    (∀ (final : Bool) (dk d1 : Nat), dk ≤ 1 → 2 ≤ d1 →
      zipDimStep final dk d1 = .ok d1) ∧
    (∀ (final : Bool) (dk d1 : Nat), d1 ≤ 1 → 2 ≤ dk →
      zipDimStep final dk d1 = .ok dk) := by
  refine ⟨rfl, rfl, rfl, rfl, rfl, ?_, ?_⟩
  · intro final dk d1 hk hd
    rw [zipDimStep, if_pos ⟨hk, by omega⟩]
  · intro final dk d1 hd hk
    rw [zipDimStep, if_neg (by omega), if_pos ⟨hd, by omega⟩]

/-- Witness for C4: the per-dimension broadcast rules at concrete
dimensions. -/
theorem binaryZip_broadcast_shapes_witness :
    zipDimStep true 1 5 = .ok 5 ∧ zipDimStep false 5 0 = .ok 5 :=
  ⟨binaryZip_broadcast_shapes.2.2.2.2.2.1 true 1 5 (by decide) (by decide),
   binaryZip_broadcast_shapes.2.2.2.2.2.2 false 5 0 (by decide) (by decide)⟩

/-- Counterexample to C5: on the final validation pass a binary-reduce
sample-shape mismatch (`[2]` vs `[3]`, ordinary operations, both
layouts present) raises `LogicError`, not `InvalidArgument` as the
claim states. -/
theorem validateBinaryReduce_mismatch_is_logicError :
    validateBinaryReduce true true ⟨[2], true, "Plus"⟩ ⟨[3], true, "Plus"⟩
      = .error (.logicError reduceDimsMismatchMsg) := by
  rfl

/-- C5 (amended): on the final pass, the binary-reduce output is a
scalar with no minibatch layout; a sample-shape mismatch outside the
distributed opt-out fails with `LogicError` (not `InvalidArgument`),
and an input lacking a minibatch layout — checked only when the shapes
are compatible — also fails with `LogicError`. -/
theorem validateBinaryReduce_error_kinds (isV2 : Bool) (in0 in1 : RInput) :
    (elementwiseCompatible in0.shape in1.shape = false →
     in0.opName ∉ distOptOutNames → in1.opName ∉ distOptOutNames →
     validateBinaryReduce true isV2 in0 in1
       = .error (.logicError reduceDimsMismatchMsg)) ∧
    (elementwiseCompatible in0.shape in1.shape = true →
     in0.hasLayout = false →
     validateBinaryReduce true isV2 in0 in1
       = .error (.logicError "Expected MBLayout in Input 0.")) ∧
    (elementwiseCompatible in0.shape in1.shape = true →
     in0.hasLayout = true → in1.hasLayout = false →
     validateBinaryReduce true isV2 in0 in1
       = .error (.logicError "Expected MBLayout in Input 1.")) ∧
    (∀ r, validateBinaryReduce true isV2 in0 in1 = .ok r →
      r = { dims := scalarShape isV2, hasLayout := false }) := by
  refine ⟨?_, ?_, ?_, ?_⟩
  · intro hc hn0 hn1
    simp [validateBinaryReduce, binaryReduceCheck, hc, hn0, hn1, Except.bind]
  · intro hc h0
    simp [validateBinaryReduce, binaryReduceCheck, hc, h0, Except.bind]
  · intro hc h0 h1
    simp [validateBinaryReduce, binaryReduceCheck, hc, h0, h1, Except.bind]
  · intro r hr
    unfold validateBinaryReduce at hr
    cases hcheck : binaryReduceCheck in0 in1 with
    | error e =>
      rw [if_pos rfl] at hr
      simp [hcheck, Except.bind] at hr
    | ok u =>
      rw [if_pos rfl] at hr
      simp [hcheck, Except.bind] at hr
      exact hr.symm

/-- Witness for the amended C5: a mismatch, a missing layout on input
0, a missing layout on input 1, and the scalar output shape. -/
theorem validateBinaryReduce_error_kinds_witness :
    validateBinaryReduce true true ⟨[2], true, "Plus"⟩ ⟨[3], true, "Plus"⟩
      = .error (.logicError reduceDimsMismatchMsg) ∧
    validateBinaryReduce true true ⟨[2], false, "Plus"⟩ ⟨[2], true, "Plus"⟩
      = .error (.logicError "Expected MBLayout in Input 0.") ∧
    validateBinaryReduce true true ⟨[2], true, "Plus"⟩ ⟨[2], false, "Plus"⟩
      = .error (.logicError "Expected MBLayout in Input 1.") ∧
    ({ dims := [], hasLayout := false } : RResult)
      = { dims := scalarShape true, hasLayout := false } :=
  ⟨(validateBinaryReduce_error_kinds true ⟨[2], true, "Plus"⟩
      ⟨[3], true, "Plus"⟩).1 (by decide) (by decide) (by decide),
   (validateBinaryReduce_error_kinds true ⟨[2], false, "Plus"⟩
      ⟨[2], true, "Plus"⟩).2.1 (by decide) rfl,
   (validateBinaryReduce_error_kinds true ⟨[2], true, "Plus"⟩
      ⟨[2], false, "Plus"⟩).2.2.1 (by decide) rfl rfl,
   (validateBinaryReduce_error_kinds true ⟨[2], true, "Plus"⟩
      ⟨[2], true, "Plus"⟩).2.2.2 ⟨[], false⟩ rfl⟩


/-- C8: `GetOneSampleTensorSliceFor` raises `LogicError` whenever the
frame range does not denote exactly one packed column; when it does and
the node has a layout, the result is `GetTensorSliceFor` with the
trailing sequence/time axes stripped — the plain per-sample tensor. -/
theorem getOneSampleTensorSliceFor_spec (node : SliceNode) (rank : Nat)
    (fr : FrameRangeM) :
    (fr.isOneColumnWrt node.layout = false →
      getOneSampleTensorSliceFor node rank fr
        = .error (.logicError oneSampleMsg)) ∧
    (fr.isOneColumnWrt node.layout = true → node.layout.isSome = true →
      getOneSampleTensorSliceFor node rank fr
        = .ok (trimRank rank (getTensorSliceFor node rank fr))) ∧
    (fr.isOneColumnWrt node.layout = true → node.layout.isSome = true →
      node.sampleShape.length ≤ rank →
      getOneSampleTensorSliceFor node rank fr
        = .ok (padWithOnes node.sampleShape rank)) := by
  refine ⟨?_, ?_, ?_⟩
  · intro h
    simp [getOneSampleTensorSliceFor, h]
  · intro h hl
    simp [getOneSampleTensorSliceFor, h, hl]
  · intro h hl hr
    obtain ⟨L, hL⟩ := Option.isSome_iff_exists.mp hl
    rw [hL] at h
    have hlen : (padWithOnes node.sampleShape rank).length = rank := by
      unfold padWithOnes
      split
      · simp only [List.length_append, List.length_replicate]
        omega
      · omega
    simp only [getOneSampleTensorSliceFor, hL, h, Bool.not_true,
      Bool.false_eq_true, if_false, Option.isSome_some, if_true,
      getTensorSliceFor, trimRank]
    rw [List.take_left' hlen]

/-- Witness for C8: a one-column frame range on the two-sequence layout
yields the bare sample shape, and a whole-batch range errors. -/
theorem getOneSampleTensorSliceFor_spec_witness :
    getOneSampleTensorSliceFor ⟨[3, 4], some twoSeqLayout⟩ 2
        ⟨true, 3, Option.none⟩
      = .error (.logicError oneSampleMsg) ∧
    getOneSampleTensorSliceFor ⟨[3, 4], some twoSeqLayout⟩ 2
        ⟨false, 1, some 0⟩
      = .ok (padWithOnes [3, 4] 2) :=
  ⟨(getOneSampleTensorSliceFor_spec ⟨[3, 4], some twoSeqLayout⟩ 2
      ⟨true, 3, Option.none⟩).1 rfl,
   (getOneSampleTensorSliceFor_spec ⟨[3, 4], some twoSeqLayout⟩ 2
      ⟨false, 1, some 0⟩).2.2 rfl rfl (by decide)⟩


/-- Helper: one step of the n-ary dimension check either raises the
incompatibility error or succeeds with some running maximum. -/
theorem naryCheckStep_error_or_ok (k m : Nat) (s : List Nat) :
    naryCheckStep k m s = .error (.invalidArgument dimsIncompatibleMsg) ∨
    ∃ m2, naryCheckStep k m s = .ok m2 := by
  unfold naryCheckStep
  split
  · split
    · exact Or.inl rfl
    · split
      · exact Or.inr ⟨_, rfl⟩
      · exact Or.inr ⟨_, rfl⟩
  · exact Or.inr ⟨_, rfl⟩

/-- Helper: the step at a reachable index, written out. -/
theorem naryCheckStep_eq (k m : Nat) (s : List Nat) (hk : k < s.length) :
    naryCheckStep k m s =
      if s.getD k 0 > 1 ∧ m ≠ s.getD k 0 ∧ m > 1 then
        .error (.invalidArgument dimsIncompatibleMsg)
      else if s.getD k 0 > m then .ok (s.getD k 0) else .ok m := by
  unfold naryCheckStep
  rw [if_pos hk]
  rfl

/-- Helper: the step at an out-of-rank index keeps the maximum. -/
theorem naryCheckStep_skip (k m : Nat) (s : List Nat)
    (hk : ¬ k < s.length) : naryCheckStep k m s = .ok m := by
  unfold naryCheckStep
  rw [if_neg hk]
  rfl

/-- Helper: the whole n-ary dimension check either raises the
incompatibility error or succeeds. -/
theorem naryCheckFold_error_or_ok (k : Nat) (shapes : List (List Nat)) :
    ∀ m : Nat,
      List.foldlM (naryCheckStep k) m shapes
        = .error (.invalidArgument dimsIncompatibleMsg) ∨
      ∃ m2, List.foldlM (naryCheckStep k) m shapes = .ok m2 := by
  induction shapes with
  | nil => intro m; exact Or.inr ⟨m, rfl⟩
  | cons s rest ih =>
    intro m
    rw [List.foldlM_cons]
    rcases naryCheckStep_error_or_ok k m s with h | ⟨m2, h⟩
    · rw [h]
      exact Or.inl rfl
    · rw [h]
      exact ih m2

/-- Helper: once the running maximum of the n-ary dimension check
exceeds 1 it can never change again — any differing concrete dimension
raises the incompatibility error instead. -/
theorem naryCheckFold_stuck (k : Nat) (shapes : List (List Nat)) :
    ∀ m : Nat, 1 < m →
      List.foldlM (naryCheckStep k) m shapes = .ok m ∨
      List.foldlM (naryCheckStep k) m shapes
        = .error (.invalidArgument dimsIncompatibleMsg) := by
  induction shapes with
  | nil => intro m _; exact Or.inl rfl
  | cons s rest ih =>
    intro m hm
    rw [List.foldlM_cons]
    by_cases hk : k < s.length
    · rw [naryCheckStep_eq k m s hk]
      by_cases hc : s.getD k 0 > 1 ∧ m ≠ s.getD k 0 ∧ m > 1
      · rw [if_pos hc]
        exact Or.inr rfl
      · rw [if_neg hc, if_neg (by omega : ¬ s.getD k 0 > m)]
        exact ih m hm
    · rw [naryCheckStep_skip k m s hk]
      exact ih m hm

/-- Helper: with a concrete running maximum above 1, the check errors
once it reaches an input whose `k`-th dimension is a different concrete
value. -/
theorem naryCheckFold_hits (k : Nat) (b : List Nat)
    (mid post : List (List Nat)) (hb : k < b.length)
    (hb1 : 1 < b.getD k 0) :
    ∀ m, 1 < m → m ≠ b.getD k 0 →
      List.foldlM (naryCheckStep k) m (mid ++ b :: post)
        = .error (.invalidArgument dimsIncompatibleMsg) := by
  intro m hm hne
  rw [List.foldlM_append]
  rcases naryCheckFold_stuck k mid m hm with h | h
  · rw [h]
    show List.foldlM (naryCheckStep k) m (b :: post) = _
    rw [List.foldlM_cons, naryCheckStep_eq k m b hb,
      if_pos ⟨hb1, hne, hm⟩]
    rfl
  · rw [h]
    rfl

/-- Helper: two inputs with conflicting concrete dimensions at index
`k` make the n-ary dimension check error, from any starting maximum and
in any position of the input list. -/
theorem naryCheckFold_conflict (k : Nat) (a b : List Nat)
    (mid post : List (List Nat))
    (ha : k < a.length) (hb : k < b.length)
    (ha1 : 1 < a.getD k 0) (hb1 : 1 < b.getD k 0)
    (hne : a.getD k 0 ≠ b.getD k 0) :
    ∀ (pre : List (List Nat)) (m : Nat),
      List.foldlM (naryCheckStep k) m (pre ++ a :: (mid ++ b :: post))
        = .error (.invalidArgument dimsIncompatibleMsg) := by
  intro pre
  induction pre with
  | nil =>
    intro m
    rw [List.nil_append, List.foldlM_cons, naryCheckStep_eq k m a ha]
    by_cases hc : a.getD k 0 > 1 ∧ m ≠ a.getD k 0 ∧ m > 1
    · rw [if_pos hc]
      rfl
    · rw [if_neg hc]
      by_cases hdm : a.getD k 0 > m
      · rw [if_pos hdm]
        exact naryCheckFold_hits k b mid post hb hb1 _ ha1 hne
      · rw [if_neg hdm]
        have hma : m = a.getD k 0 := by omega
        exact naryCheckFold_hits k b mid post hb hb1 m (by omega) (by omega)
  | cons s pre ih =>
    intro m
    rw [List.cons_append, List.foldlM_cons]
    rcases naryCheckStep_error_or_ok k m s with h | ⟨m2, h⟩
    · rw [h]
      rfl
    · rw [h]
      exact ih m2

/-- Helper: `mapM` over `Except` errors with `e` when every element
evaluation is ok-or-`e` and some list member evaluates to the error. -/
theorem mapM_error_of_mem (f : Nat → Except Err Nat) (e : Err)
    (hf : ∀ x, f x = .error e ∨ ∃ y, f x = .ok y) :
    ∀ l : List Nat, (∃ x, x ∈ l ∧ f x = .error e) →
      l.mapM f = .error e := by
  intro l
  induction l with
  | nil =>
    rintro ⟨x, hx, _⟩
    exact absurd hx (List.not_mem_nil x)
  | cons c rest ih =>
    rintro ⟨x, hx, hfx⟩
    rw [List.mapM_cons]
    rcases hf c with hc | ⟨y, hy⟩
    · rw [hc]
      rfl
    · rw [hy]
      rcases List.mem_cons.mp hx with rfl | hx2
      · rw [hy] at hfx
        exact Except.noConfusion hfx
      · show (List.mapM f rest >>= fun ys => pure (y :: ys)) = _
        rw [ih ⟨x, hx2, hfx⟩]
        rfl

/-- Helper: a left fold of maxima dominates its initial value. -/
theorem init_le_foldl_max (l : List (List Nat)) :
    ∀ init : Nat, init ≤ l.foldl (fun m s => max m s.length) init := by
  induction l with
  | nil => intro init; exact Nat.le_refl init
  | cons s rest ih =>
    intro init
    rw [List.foldl_cons]
    exact le_trans (Nat.le_max_left init s.length) (ih _)

/-- Helper: the rank fold of `ValidateNaryZip` dominates the length of
every member shape. -/
theorem length_le_foldl_max (s : List Nat) :
    ∀ l : List (List Nat), s ∈ l →
      ∀ init, s.length ≤ l.foldl (fun m t => max m t.length) init := by
  intro l
  induction l with
  | nil =>
    intro hs
    exact absurd hs (List.not_mem_nil s)
  | cons t rest ih =>
    intro hs init
    rw [List.foldl_cons]
    rcases List.mem_cons.mp hs with rfl | h2
    · exact le_trans (Nat.le_max_right init s.length)
        (init_le_foldl_max rest _)
    · exact ih h2 _

/-- C9: the n-ary zip dimension-conflict check is not deferred to the
final validation pass — whenever two inputs carry conflicting concrete
dimensions (both above 1 and unequal) at the same index,
`ValidateNaryZip` raises `InvalidArgument` for every value of
`isFinalValidationPass`; in particular `[5]` against `[3]` fails on a
non-final pass, while binary zip tolerates the same conflict there. -/
theorem naryZip_conflict_not_deferred :
    (∀ (final : Bool) (tl k : Nat) (pre mid post : List VInput)
       (a b : VInput),
      k < a.shape.length → k < b.shape.length →
      1 < a.shape.getD k 0 → 1 < b.shape.getD k 0 →
      a.shape.getD k 0 ≠ b.shape.getD k 0 →
      validateNaryZip final tl (pre ++ a :: (mid ++ b :: post))
        = .error (.invalidArgument dimsIncompatibleMsg)) ∧
    validateNaryZip false 0 [⟨[5], Option.none⟩, ⟨[3], Option.none⟩]
      = .error (.invalidArgument dimsIncompatibleMsg) ∧
    binaryZipDims false [5] [3] = .ok [5] := by
  refine ⟨?_, rfl, rfl⟩
  intro final tl k pre mid post a b ha hb ha1 hb1 hne
  have hmap : (pre ++ a :: (mid ++ b :: post)).map (fun i => i.shape)
      = pre.map (fun i => i.shape)
        ++ a.shape :: (mid.map (fun i => i.shape)
          ++ b.shape :: post.map (fun i => i.shape)) := by
    simp
  have hmem : a.shape
      ∈ (pre ++ a :: (mid ++ b :: post)).map (fun i => i.shape) := by
    rw [hmap]
    exact List.mem_append_right _ (List.mem_cons_self _ _)
  have hk : k < ((pre ++ a :: (mid ++ b :: post)).map
      (fun i => i.shape)).foldl (fun m s => max m s.length) 0 :=
    lt_of_lt_of_le ha (length_le_foldl_max a.shape _ hmem 0)
  have hfold : naryDimCheckFold k
      ((pre ++ a :: (mid ++ b :: post)).map (fun i => i.shape))
      = .error (.invalidArgument dimsIncompatibleMsg) := by
    rw [naryDimCheckFold, hmap]
    exact naryCheckFold_conflict k a.shape b.shape
      (mid.map (fun i => i.shape)) (post.map (fun i => i.shape))
      ha hb ha1 hb1 hne (pre.map (fun i => i.shape)) 0
  have hok : ∀ k2 : Nat,
      naryDimCheckFold k2
          ((pre ++ a :: (mid ++ b :: post)).map (fun i => i.shape))
        = .error (.invalidArgument dimsIncompatibleMsg) ∨
      ∃ m2, naryDimCheckFold k2
          ((pre ++ a :: (mid ++ b :: post)).map (fun i => i.shape))
        = .ok m2 := by
    intro k2
    unfold naryDimCheckFold
    exact naryCheckFold_error_or_ok k2
      ((pre ++ a :: (mid ++ b :: post)).map (fun i => i.shape)) 0
  have hmapM : (List.range (((pre ++ a :: (mid ++ b :: post)).map
        (fun i => i.shape)).foldl (fun m s => max m s.length) 0)).mapM
      (fun k2 => naryDimCheckFold k2
        ((pre ++ a :: (mid ++ b :: post)).map (fun i => i.shape)))
      = .error (.invalidArgument dimsIncompatibleMsg) :=
    mapM_error_of_mem
      (fun k2 => naryDimCheckFold k2
        ((pre ++ a :: (mid ++ b :: post)).map (fun i => i.shape)))
      (.invalidArgument dimsIncompatibleMsg) hok
      _ ⟨k, List.mem_range.mpr hk, hfold⟩
  simp only [validateNaryZip]
  rw [hmapM]
  rfl

/-- Witness for C9: the conflict `[5]` vs `[3]` errors on the non-final
pass through the general statement. -/
theorem naryZip_conflict_not_deferred_witness :
    validateNaryZip false 0
        ([] ++ (⟨[5], Option.none⟩ : VInput)
          :: ([] ++ (⟨[3], Option.none⟩ : VInput) :: []))
      = .error (.invalidArgument dimsIncompatibleMsg) :=
  naryZip_conflict_not_deferred.1 false 0 0 [] [] []
    ⟨[5], Option.none⟩ ⟨[3], Option.none⟩
    (by decide) (by decide) (by decide) (by decide) (by decide)


/-- Helper: `getD` after `set` at a different index. -/
theorem getD_set_ne {α : Type} (l : List α) (n m : Nat) (a d : α)
    (h : n ≠ m) : (l.set n a).getD m d = l.getD m d := by
  rw [List.getD_eq_getElem?_getD, List.getD_eq_getElem?_getD,
    List.getElem?_set, if_neg h]

/-- Helper: `getD` after an in-range `set` at the same index. -/
theorem getD_set_self {α : Type} (l : List α) (n : Nat) (a d : α)
    (h : n < l.length) : (l.set n a).getD n d = a := by
  rw [List.getD_eq_getElem?_getD, List.getElem?_set, if_pos rfl,
    if_pos h]
  rfl

/-- Helper: reading a replicated list with the replicated value as
default always yields that value. -/
theorem getD_replicate_self {α : Type} (n m : Nat) (a : α) :
    (List.replicate n a).getD m a = a := by
  rw [List.getD_eq_getElem?_getD, List.getElem?_replicate]
  split <;> rfl

/-- Helper: `getD` of a mapped range at an in-range index. -/
theorem getD_range_map {α : Type} (f : Nat → α) (n i : Nat) (d : α)
    (h : i < n) : ((List.range n).map f).getD i d = f i := by
  rw [List.getD_eq_getElem?_getD, List.getElem?_map,
    List.getElem?_range h]
  rfl

/-- Helper: `getD` at an in-range index equals the element. -/
theorem getD_eq_getElem {α : Type} (l : List α) (n : Nat) (d : α)
    (h : n < l.length) : l.getD n d = l[n] := by
  rw [List.getD_eq_getElem?_getD, List.getElem?_eq_getElem h]
  rfl

/-- Helper: writing `false` into a mask never turns a `false` read into
`true`. -/
theorem getD_set_false_of_false (l : List Bool) (n d : Nat)
    (h : l.getD d true = false) : (l.set n false).getD d true = false := by
  by_cases hnd : n = d
  · subst hnd
    by_cases hlen : n < l.length
    · exact getD_set_self l n false true hlen
    · exfalso
      rw [List.getD_eq_getElem?_getD,
        List.getElem?_eq_none (by omega)] at h
      exact absurd h (by simp)
  · rw [getD_set_ne l n d false true hnd]
    exact h

/-- Helper: `applySeqScatter` on a gap entry is the identity. -/
theorem applySeqScatter_gap (T P N : Nat) (bm : Bool)
    (acc : List (Option Nat) × List Bool × Nat) (sq : SeqInfo)
    (hid : sq.seqId = Option.none) :
    applySeqScatter T P N bm acc sq = acc := by
  simp only [applySeqScatter, hid]

/-- Helper: `applySeqScatter` on a live entry runs the inner
time-step loop on the index/mask pair and increments the live
counter. -/
theorem applySeqScatter_live (T P N : Nat) (bm : Bool)
    (acc : List (Option Nat) × List Bool × Nat) (sq : SeqInfo)
    (id : Nat) (hid : sq.seqId = some id) :
    applySeqScatter T P N bm acc sq =
      (((List.range T).foldl
          (innerScatterStep T P N bm acc.2.2 (seqLen T sq) sq)
          (acc.1, acc.2.1)).1,
       ((List.range T).foldl
          (innerScatterStep T P N bm acc.2.2 (seqLen T sq) sq)
          (acc.1, acc.2.1)).2,
       acc.2.2 + 1) := by
  simp only [applySeqScatter, hid]
  rfl

/-- Helper: the scatter fold skips gap entries, so it equals the fold
over the live sequence list. -/
theorem foldl_applySeqScatter_filter (T P N : Nat) (bm : Bool) :
    ∀ (seqs : List SeqInfo) (st : List (Option Nat) × List Bool × Nat),
      seqs.foldl (applySeqScatter T P N bm) st
        = (seqs.filter (fun sq => sq.seqId.isSome)).foldl
            (applySeqScatter T P N bm) st := by
  intro seqs
  induction seqs with
  | nil => intro st; rfl
  | cons sq seqs ih =>
    intro st
    rw [List.foldl_cons, List.filter_cons]
    by_cases h : sq.seqId.isSome
    · rw [if_pos h, List.foldl_cons]
      exact ih _
    · rw [if_neg h,
        applySeqScatter_gap T P N bm st sq
          (Option.not_isSome_iff_eq_none.mp h)]
      exact ih st


/-- Helper: one inner step preserves both list lengths. -/
theorem innerScatterStep_lengths (T P N : Nat) (bm : Bool) (i len : Nat)
    (sq : SeqInfo) (st : List (Option Nat) × List Bool) (j : Nat) :
    (innerScatterStep T P N bm i len sq st j).1.length = st.1.length ∧
    (innerScatterStep T P N bm i len sq st j).2.length = st.2.length := by
  unfold innerScatterStep
  split <;> simp

/-- Helper: the inner loop preserves both list lengths. -/
theorem innerFold_lengths (T P N : Nat) (bm : Bool) (i len : Nat)
    (sq : SeqInfo) :
    ∀ (js : List Nat) (st : List (Option Nat) × List Bool),
      (js.foldl (innerScatterStep T P N bm i len sq) st).1.length
        = st.1.length ∧
      (js.foldl (innerScatterStep T P N bm i len sq) st).2.length
        = st.2.length := by
  intro js
  induction js with
  | nil => intro st; exact ⟨rfl, rfl⟩
  | cons j js ih =>
    intro st
    rw [List.foldl_cons]
    obtain ⟨h1, h2⟩ := ih (innerScatterStep T P N bm i len sq st j)
    obtain ⟨g1, g2⟩ := innerScatterStep_lengths T P N bm i len sq st j
    exact ⟨h1.trans g1, h2.trans g2⟩

/-- Helper: a source column no in-range time step writes keeps its
scatter-index entry through the inner loop. -/
theorem innerFold_idx_keep (T P N : Nat) (bm : Bool) (i len : Nat)
    (sq : SeqInfo) :
    ∀ (js : List Nat) (st : List (Option Nat) × List Bool) (c : Nat),
      (∀ j ∈ js, j < len → c ≠ seqSourceCol P sq j) →
      (js.foldl (innerScatterStep T P N bm i len sq) st).1.getD c
          Option.none
        = st.1.getD c Option.none := by
  intro js
  induction js with
  | nil => intro st c _; rfl
  | cons j js ih =>
    intro st c hc
    rw [List.foldl_cons,
      ih _ c (fun j2 hj2 => hc j2 (List.mem_cons_of_mem _ hj2))]
    unfold innerScatterStep
    split
    · rename_i hjlen
      exact getD_set_ne _ _ _ _ _
        (fun he => hc j (List.mem_cons_self j js) hjlen he.symm)
    · rfl

/-- Helper: after the inner loop a scatter-index entry is unchanged or
was written by some in-range time step of this sequence. -/
theorem innerFold_idx_writer (T P N : Nat) (bm : Bool) (i len : Nat)
    (sq : SeqInfo) :
    ∀ (js : List Nat) (st : List (Option Nat) × List Bool) (c : Nat),
      (js.foldl (innerScatterStep T P N bm i len sq) st).1.getD c
          Option.none
        = st.1.getD c Option.none ∨
      ∃ j ∈ js, j < len ∧ c = seqSourceCol P sq j := by
  intro js
  induction js with
  | nil => intro st c; exact Or.inl rfl
  | cons j js ih =>
    intro st c
    rw [List.foldl_cons]
    rcases ih (innerScatterStep T P N bm i len sq st j) c with h | ⟨j2, hj2, hl2, hc2⟩
    · rw [h]
      unfold innerScatterStep
      split
      · rename_i hjlen
        by_cases hcp : c = seqSourceCol P sq j
        · exact Or.inr ⟨j, List.mem_cons_self j js, hjlen, hcp⟩
        · exact Or.inl (getD_set_ne _ _ _ _ _ (Ne.symm hcp))
      · exact Or.inl rfl
    · exact Or.inr ⟨j2, List.mem_cons_of_mem _ hj2, hl2, hc2⟩

/-- Helper: after the inner loop a validity-mask entry is unchanged or
was cleared by some out-of-range time step of this sequence. -/
theorem innerFold_mask_writer (T P N : Nat) (bm : Bool) (i len : Nat)
    (sq : SeqInfo) :
    ∀ (js : List Nat) (st : List (Option Nat) × List Bool) (d : Nat),
      (js.foldl (innerScatterStep T P N bm i len sq) st).2.getD d true
        = st.2.getD d true ∨
      ∃ j ∈ js, ¬ j < len ∧ d = seqTargetCol T N bm i j := by
  intro js
  induction js with
  | nil => intro st d; exact Or.inl rfl
  | cons j js ih =>
    intro st d
    rw [List.foldl_cons]
    rcases ih (innerScatterStep T P N bm i len sq st j) d with h | ⟨j2, hj2, hl2, hd2⟩
    · rw [h]
      unfold innerScatterStep
      split
      · exact Or.inl rfl
      · rename_i hjlen
        by_cases hdp : d = seqTargetCol T N bm i j
        · exact Or.inr ⟨j, List.mem_cons_self j js, hjlen, hdp⟩
        · exact Or.inl (getD_set_ne _ _ _ _ _ (Ne.symm hdp))
    · exact Or.inr ⟨j2, List.mem_cons_of_mem _ hj2, hl2, hd2⟩

/-- Helper: a cleared validity-mask entry stays cleared through the
inner loop. -/
theorem innerFold_mask_mono (T P N : Nat) (bm : Bool) (i len : Nat)
    (sq : SeqInfo) :
    ∀ (js : List Nat) (st : List (Option Nat) × List Bool) (d : Nat),
      st.2.getD d true = false →
      (js.foldl (innerScatterStep T P N bm i len sq) st).2.getD d true
        = false := by
  intro js
  induction js with
  | nil => intro st d h; exact h
  | cons j js ih =>
    intro st d h
    rw [List.foldl_cons]
    apply ih
    unfold innerScatterStep
    split
    · exact h
    · exact getD_set_false_of_false _ _ _ h

/-- Helper: the inner loop clears the validity-mask entry of every
destination column of an out-of-range time step. -/
theorem innerFold_mask_false (T P N : Nat) (bm : Bool) (i len : Nat)
    (sq : SeqInfo) :
    ∀ (js : List Nat) (st : List (Option Nat) × List Bool) (j0 : Nat),
      j0 ∈ js → ¬ j0 < len → seqTargetCol T N bm i j0 < st.2.length →
      (js.foldl (innerScatterStep T P N bm i len sq) st).2.getD
          (seqTargetCol T N bm i j0) true
        = false := by
  intro js
  induction js with
  | nil => intro st j0 hmem; exact absurd hmem (List.not_mem_nil j0)
  | cons j js ih =>
    intro st j0 hmem hj0 hbound
    rw [List.foldl_cons]
    by_cases hj : j = j0
    · subst hj
      apply innerFold_mask_mono
      unfold innerScatterStep
      rw [if_neg hj0]
      exact getD_set_self _ _ _ _ hbound
    · rcases List.mem_cons.mp hmem with heq | hmem2
      · exact absurd heq.symm hj
      · apply ih _ j0 hmem2 hj0
        rw [(innerScatterStep_lengths T P N bm i len sq st j).2]
        exact hbound

/-- Helper: the inner loop writes the scatter-index entry of every
in-range time step with this sequence destination column, provided no
other time step hits the same source column. -/
theorem innerFold_idx_val (T P N : Nat) (bm : Bool) (i len : Nat)
    (sq : SeqInfo) :
    ∀ (js : List Nat) (st : List (Option Nat) × List Bool) (j0 : Nat),
      j0 ∈ js → j0 < len → seqSourceCol P sq j0 < st.1.length →
      js.Nodup →
      (∀ j ∈ js, j < len → j ≠ j0 →
        seqSourceCol P sq j ≠ seqSourceCol P sq j0) →
      (js.foldl (innerScatterStep T P N bm i len sq) st).1.getD
          (seqSourceCol P sq j0) Option.none
        = some (seqTargetCol T N bm i j0) := by
  intro js
  induction js with
  | nil => intro st j0 hmem; exact absurd hmem (List.not_mem_nil j0)
  | cons j js ih =>
    intro st j0 hmem hj0len hbound hnd hinj
    rw [List.foldl_cons]
    by_cases hj : j = j0
    · subst hj
      have hkeep : ∀ j2 ∈ js, j2 < len →
          seqSourceCol P sq j ≠ seqSourceCol P sq j2 := by
        intro j2 hj2 hl2
        have hne : j2 ≠ j := fun he => (List.nodup_cons.mp hnd).1 (he ▸ hj2)
        exact fun he =>
          hinj j2 (List.mem_cons_of_mem _ hj2) hl2 hne he.symm
      rw [innerFold_idx_keep T P N bm i len sq js _ _ hkeep]
      unfold innerScatterStep
      rw [if_pos hj0len]
      exact getD_set_self _ _ _ _ hbound
    · rcases List.mem_cons.mp hmem with heq | hmem2
      · exact absurd heq.symm hj
      · apply ih _ j0 hmem2 hj0len ?_ (List.nodup_cons.mp hnd).2 ?_
        · rw [(innerScatterStep_lengths T P N bm i len sq st j).1]
          exact hbound
        · intro j2 hj2 hl2 hne2
          exact hinj j2 (List.mem_cons_of_mem _ hj2) hl2 hne2


/-- Helper: the scatter fold over live sequences preserves the list
lengths and advances the live counter by the list length. -/
theorem outerFold_state (T P N : Nat) (bm : Bool) :
    ∀ (seqs : List SeqInfo) (st : List (Option Nat) × List Bool × Nat),
      (∀ sq ∈ seqs, sq.seqId.isSome = true) →
      (seqs.foldl (applySeqScatter T P N bm) st).1.length = st.1.length ∧
      (seqs.foldl (applySeqScatter T P N bm) st).2.1.length
        = st.2.1.length ∧
      (seqs.foldl (applySeqScatter T P N bm) st).2.2
        = st.2.2 + seqs.length := by
  intro seqs
  induction seqs with
  | nil => intro st _; exact ⟨rfl, rfl, rfl⟩
  | cons sq seqs ih =>
    intro st hlive
    rw [List.foldl_cons]
    obtain ⟨id, hid⟩ := Option.isSome_iff_exists.mp
      (hlive sq (List.mem_cons_self sq seqs))
    obtain ⟨h1, h2, h3⟩ := ih (applySeqScatter T P N bm st sq)
      (fun sq2 hm => hlive sq2 (List.mem_cons_of_mem _ hm))
    refine ⟨?_, ?_, ?_⟩
    · rw [h1, applySeqScatter_live T P N bm st sq id hid]
      exact (innerFold_lengths T P N bm st.2.2 (seqLen T sq) sq
        (List.range T) (st.1, st.2.1)).1
    · rw [h2, applySeqScatter_live T P N bm st sq id hid]
      exact (innerFold_lengths T P N bm st.2.2 (seqLen T sq) sq
        (List.range T) (st.1, st.2.1)).2
    · rw [h3, applySeqScatter_live T P N bm st sq id hid]
      show st.2.2 + 1 + seqs.length = st.2.2 + (seqs.length + 1)
      omega

/-- Helper: a source column no live sequence writes keeps its
scatter-index entry through the whole fold. -/
theorem outerFold_idx_keep (T P N : Nat) (bm : Bool) :
    ∀ (seqs : List SeqInfo) (st : List (Option Nat) × List Bool × Nat)
      (c : Nat),
      (∀ sq ∈ seqs, sq.seqId.isSome = true) →
      (∀ sq ∈ seqs, ∀ j, j < seqLen T sq → c ≠ seqSourceCol P sq j) →
      (seqs.foldl (applySeqScatter T P N bm) st).1.getD c Option.none
        = st.1.getD c Option.none := by
  intro seqs
  induction seqs with
  | nil => intro st c _ _; rfl
  | cons sq seqs ih =>
    intro st c hlive hc
    obtain ⟨id, hid⟩ := Option.isSome_iff_exists.mp
      (hlive sq (List.mem_cons_self sq seqs))
    rw [List.foldl_cons,
      ih (applySeqScatter T P N bm st sq) c
        (fun sq2 hm => hlive sq2 (List.mem_cons_of_mem _ hm))
        (fun sq2 hm => hc sq2 (List.mem_cons_of_mem _ hm)),
      applySeqScatter_live T P N bm st sq id hid]
    exact innerFold_idx_keep T P N bm st.2.2 (seqLen T sq) sq
      (List.range T) (st.1, st.2.1) c
      (fun j _ hjl => hc sq (List.mem_cons_self sq seqs) j hjl)

/-- Helper: after the whole fold a scatter-index entry is unchanged or
was written by an in-range time step of some live sequence. -/
theorem outerFold_idx_writer (T P N : Nat) (bm : Bool) :
    ∀ (seqs : List SeqInfo) (st : List (Option Nat) × List Bool × Nat)
      (c : Nat),
      (∀ sq ∈ seqs, sq.seqId.isSome = true) →
      (seqs.foldl (applySeqScatter T P N bm) st).1.getD c Option.none
        = st.1.getD c Option.none ∨
      ∃ n, ∃ hn : n < seqs.length, ∃ j,
        j < seqLen T seqs[n] ∧ c = seqSourceCol P seqs[n] j := by
  intro seqs
  induction seqs with
  | nil => intro st c _; exact Or.inl rfl
  | cons sq seqs ih =>
    intro st c hlive
    obtain ⟨id, hid⟩ := Option.isSome_iff_exists.mp
      (hlive sq (List.mem_cons_self sq seqs))
    rw [List.foldl_cons]
    rcases ih (applySeqScatter T P N bm st sq) c
        (fun sq2 hm => hlive sq2 (List.mem_cons_of_mem _ hm)) with
      h | ⟨n, hn, j, hjl, hcp⟩
    · rw [h, applySeqScatter_live T P N bm st sq id hid]
      rcases innerFold_idx_writer T P N bm st.2.2 (seqLen T sq) sq
          (List.range T) (st.1, st.2.1) c with
        h2 | ⟨j, _, hjl, hcp⟩
      · exact Or.inl h2
      · exact Or.inr ⟨0, Nat.succ_pos _, j, hjl, hcp⟩
    · exact Or.inr ⟨n + 1, Nat.succ_lt_succ hn, j, hjl, hcp⟩

/-- Helper: after the whole fold a validity-mask entry is unchanged or
was cleared by an out-of-range time step of the `(st.2.2 + n)`-th live
sequence. -/
theorem outerFold_mask_writer (T P N : Nat) (bm : Bool) :
    ∀ (seqs : List SeqInfo) (st : List (Option Nat) × List Bool × Nat)
      (d : Nat),
      (∀ sq ∈ seqs, sq.seqId.isSome = true) →
      (seqs.foldl (applySeqScatter T P N bm) st).2.1.getD d true
        = st.2.1.getD d true ∨
      ∃ n, ∃ hn : n < seqs.length, ∃ j,
        ¬ j < seqLen T seqs[n] ∧ j < T ∧
        d = seqTargetCol T N bm (st.2.2 + n) j := by
  intro seqs
  induction seqs with
  | nil => intro st d _; exact Or.inl rfl
  | cons sq seqs ih =>
    intro st d hlive
    obtain ⟨id, hid⟩ := Option.isSome_iff_exists.mp
      (hlive sq (List.mem_cons_self sq seqs))
    rw [List.foldl_cons]
    rcases ih (applySeqScatter T P N bm st sq) d
        (fun sq2 hm => hlive sq2 (List.mem_cons_of_mem _ hm)) with
      h | ⟨n, hn, j, hnl, hjT, hd2⟩
    · rw [h, applySeqScatter_live T P N bm st sq id hid]
      rcases innerFold_mask_writer T P N bm st.2.2 (seqLen T sq) sq
          (List.range T) (st.1, st.2.1) d with
        h2 | ⟨j, hjmem, hjl, hd2⟩
      · exact Or.inl h2
      · exact Or.inr ⟨0, Nat.succ_pos _, j, hjl,
          List.mem_range.mp hjmem, hd2⟩
    · refine Or.inr ⟨n + 1, Nat.succ_lt_succ hn, j, hnl, hjT, ?_⟩
      rw [applySeqScatter_live T P N bm st sq id hid] at hd2
      have harg : st.2.2 + 1 + n = st.2.2 + (n + 1) := by omega
      rw [← harg]
      exact hd2

/-- Helper: a cleared validity-mask entry stays cleared through the
whole fold. -/
theorem outerFold_mask_mono (T P N : Nat) (bm : Bool) :
    ∀ (seqs : List SeqInfo) (st : List (Option Nat) × List Bool × Nat)
      (d : Nat),
      (∀ sq ∈ seqs, sq.seqId.isSome = true) →
      st.2.1.getD d true = false →
      (seqs.foldl (applySeqScatter T P N bm) st).2.1.getD d true
        = false := by
  intro seqs
  induction seqs with
  | nil => intro st d _ h; exact h
  | cons sq seqs ih =>
    intro st d hlive h
    obtain ⟨id, hid⟩ := Option.isSome_iff_exists.mp
      (hlive sq (List.mem_cons_self sq seqs))
    rw [List.foldl_cons]
    apply ih (applySeqScatter T P N bm st sq) d
      (fun sq2 hm => hlive sq2 (List.mem_cons_of_mem _ hm))
    rw [applySeqScatter_live T P N bm st sq id hid]
    exact innerFold_mask_mono T P N bm st.2.2 (seqLen T sq) sq
      (List.range T) (st.1, st.2.1) d h

/-- Helper: the fold clears the validity-mask entry of every
destination cell of an out-of-range time step of a live sequence. -/
theorem outerFold_mask_false (T P N : Nat) (bm : Bool) :
    ∀ (seqs : List SeqInfo) (st : List (Option Nat) × List Bool × Nat)
      (n : Nat) (hn : n < seqs.length) (j : Nat),
      (∀ sq ∈ seqs, sq.seqId.isSome = true) →
      ¬ j < seqLen T seqs[n] → j < T →
      seqTargetCol T N bm (st.2.2 + n) j < st.2.1.length →
      (seqs.foldl (applySeqScatter T P N bm) st).2.1.getD
          (seqTargetCol T N bm (st.2.2 + n) j) true
        = false := by
  intro seqs
  induction seqs with
  | nil => intro st n hn; exact absurd hn (Nat.not_lt_zero n)
  | cons sq seqs ih =>
    intro st n hn j hlive hnl hjT hbound
    obtain ⟨id, hid⟩ := Option.isSome_iff_exists.mp
      (hlive sq (List.mem_cons_self sq seqs))
    rw [List.foldl_cons]
    cases n with
    | zero =>
      apply outerFold_mask_mono T P N bm seqs _ _
        (fun sq2 hm => hlive sq2 (List.mem_cons_of_mem _ hm))
      rw [applySeqScatter_live T P N bm st sq id hid]
      exact innerFold_mask_false T P N bm st.2.2 (seqLen T sq) sq
        (List.range T) (st.1, st.2.1) j (List.mem_range.mpr hjT) hnl
        hbound
    | succ m =>
      have hm : m < seqs.length := Nat.lt_of_succ_lt_succ hn
      have hlen2 : (applySeqScatter T P N bm st sq).2.1.length
          = st.2.1.length := by
        rw [applySeqScatter_live T P N bm st sq id hid]
        exact (innerFold_lengths T P N bm st.2.2 (seqLen T sq) sq
          (List.range T) (st.1, st.2.1)).2
      have harg : (applySeqScatter T P N bm st sq).2.2 + m
          = st.2.2 + (m + 1) := by
        rw [applySeqScatter_live T P N bm st sq id hid]
        show st.2.2 + 1 + m = st.2.2 + (m + 1)
        omega
      rw [← harg]
      exact ih (applySeqScatter T P N bm st sq) m hm j
        (fun sq2 hm2 => hlive sq2 (List.mem_cons_of_mem _ hm2))
        hnl hjT (by rw [harg, hlen2]; exact hbound)

/-- Helper: the fold writes the scatter-index entry of every in-range
time step of a live sequence with that sequence destination column,
provided no other (sequence, time step) pair hits the same source
column. -/
theorem outerFold_idx_val (T P N : Nat) (bm : Bool) :
    ∀ (seqs : List SeqInfo) (st : List (Option Nat) × List Bool × Nat)
      (n : Nat) (hn : n < seqs.length) (j : Nat),
      (∀ sq ∈ seqs, sq.seqId.isSome = true) →
      j < seqLen T seqs[n] →
      seqSourceCol P seqs[n] j < st.1.length →
      (∀ n2 (hn2 : n2 < seqs.length) j2, j2 < seqLen T seqs[n2] →
        (n2 ≠ n ∨ j2 ≠ j) →
        seqSourceCol P seqs[n2] j2 ≠ seqSourceCol P seqs[n] j) →
      (seqs.foldl (applySeqScatter T P N bm) st).1.getD
          (seqSourceCol P seqs[n] j) Option.none
        = some (seqTargetCol T N bm (st.2.2 + n) j) := by
  intro seqs
  induction seqs with
  | nil => intro st n hn; exact absurd hn (Nat.not_lt_zero n)
  | cons sq seqs ih =>
    intro st n hn j hlive hjlen hbound huniq
    obtain ⟨id, hid⟩ := Option.isSome_iff_exists.mp
      (hlive sq (List.mem_cons_self sq seqs))
    rw [List.foldl_cons]
    cases n with
    | zero =>
      simp only [List.getElem_cons_zero] at hjlen hbound ⊢
      have hjT : j < T :=
        lt_of_lt_of_le hjlen
          (le_trans (Nat.sub_le _ _) (Nat.min_le_left T _))
      have hkeep : ∀ sq2 ∈ seqs, ∀ j2, j2 < seqLen T sq2 →
          seqSourceCol P sq j ≠ seqSourceCol P sq2 j2 := by
        intro sq2 hmem j2 hj2 he
        obtain ⟨m, hm, hget⟩ := List.mem_iff_getElem.mp hmem
        refine huniq (m + 1) (Nat.succ_lt_succ hm) j2 ?_
          (Or.inl (by omega)) ?_
        · show j2 < seqLen T seqs[m]
          rw [hget]
          exact hj2
        · show seqSourceCol P seqs[m] j2 = seqSourceCol P sq j
          rw [hget]
          exact he.symm
      rw [outerFold_idx_keep T P N bm seqs
          (applySeqScatter T P N bm st sq) _
          (fun sq2 hm => hlive sq2 (List.mem_cons_of_mem _ hm)) hkeep,
        applySeqScatter_live T P N bm st sq id hid]
      exact innerFold_idx_val T P N bm st.2.2 (seqLen T sq) sq
        (List.range T) (st.1, st.2.1) j (List.mem_range.mpr hjT) hjlen
        hbound (List.nodup_range T)
        (fun j2 _ hl2 hne2 =>
          huniq 0 (Nat.succ_pos _) j2 hl2 (Or.inr hne2))
    | succ m =>
      have hm : m < seqs.length := Nat.lt_of_succ_lt_succ hn
      have hlen1 : (applySeqScatter T P N bm st sq).1.length
          = st.1.length := by
        rw [applySeqScatter_live T P N bm st sq id hid]
        exact (innerFold_lengths T P N bm st.2.2 (seqLen T sq) sq
          (List.range T) (st.1, st.2.1)).1
      have harg : (applySeqScatter T P N bm st sq).2.2 + m
          = st.2.2 + (m + 1) := by
        rw [applySeqScatter_live T P N bm st sq id hid]
        show st.2.2 + 1 + m = st.2.2 + (m + 1)
        omega
      have huniq2 : ∀ n2 (hn2 : n2 < seqs.length) j2,
          j2 < seqLen T seqs[n2] → (n2 ≠ m ∨ j2 ≠ j) →
          seqSourceCol P seqs[n2] j2 ≠ seqSourceCol P seqs[m] j := by
        intro n2 hn2 j2 hj2 hne
        have hd : n2 + 1 ≠ m + 1 ∨ j2 ≠ j := by
          rcases hne with h | h
          · exact Or.inl (by omega)
          · exact Or.inr h
        exact huniq (n2 + 1) (Nat.succ_lt_succ hn2) j2 hj2 hd
      rw [← harg]
      exact ih (applySeqScatter T P N bm st sq) m hm j
        (fun sq2 hm2 => hlive sq2 (List.mem_cons_of_mem _ hm2))
        hjlen (by rw [hlen1]; exact hbound) huniq2


/-- Helper: the pairing `(x, s) ↦ x * P + s` with `s < P` is
injective — packed/unpacked column encodings decompose uniquely. -/
theorem encode_inj (P x y s t : Nat) (hs : s < P) (ht : t < P)
    (h : x * P + s = y * P + t) : x = y ∧ s = t := by
  rcases Nat.lt_trichotomy x y with hlt | heq | hgt
  · exfalso
    have h1 : (x + 1) * P ≤ y * P := Nat.mul_le_mul_right P hlt
    have h2 : (x + 1) * P = x * P + P := by ring
    omega
  · subst heq
    omega
  · exfalso
    have h1 : (y + 1) * P ≤ x * P := Nat.mul_le_mul_right P hgt
    have h2 : (y + 1) * P = y * P + P := by ring
    omega

/-- Helper: the pairing `(x, s) ↦ x * P + s` with `s < P`, `x < T`
lands inside `P * T` columns. -/
theorem encode_lt (P x s T : Nat) (hs : s < P) (hx : x < T) :
    x * P + s < P * T := by
  have h1 : (x + 1) * P ≤ T * P := Nat.mul_le_mul_right P hx
  have h2 : (x + 1) * P = x * P + P := by ring
  have h3 : T * P = P * T := Nat.mul_comm T P
  omega

/-- Helper: destination columns decompose uniquely into (live sequence,
time step) in either memory order. -/
theorem seqTargetCol_inj (T N : Nat) (bm : Bool) (n j n2 j2 : Nat)
    (hn : n < N) (hn2 : n2 < N) (hj : j < T) (hj2 : j2 < T)
    (h : seqTargetCol T N bm n j = seqTargetCol T N bm n2 j2) :
    n = n2 ∧ j = j2 := by
  unfold seqTargetCol at h
  cases bm with
  | true =>
    rw [if_pos rfl] at h
    obtain ⟨h1, h2⟩ := encode_inj N j j2 n n2 hn hn2 h
    exact ⟨h2, h1⟩
  | false =>
    rw [if_neg (by simp)] at h
    obtain ⟨h1, h2⟩ := encode_inj T n n2 j j2 hj hj2 h
    exact ⟨h1, h2⟩

/-- Helper: every destination column below `numTimeSteps * numSequences`
is the target cell of exactly one (live sequence, time step) pair. -/
theorem seqTargetCol_decode (T N : Nat) (bm : Bool) (d : Nat)
    (hd : d < T * N) :
    ∃ n j, n < N ∧ j < T ∧ seqTargetCol T N bm n j = d := by
  have hN : 0 < N := by
    rcases Nat.eq_zero_or_pos N with h0 | h
    · subst h0; simp at hd
    · exact h
  have hT : 0 < T := by
    rcases Nat.eq_zero_or_pos T with h0 | h
    · subst h0; simp at hd
    · exact h
  cases bm with
  | true =>
    refine ⟨d % N, d / N, Nat.mod_lt d hN, ?_, ?_⟩
    · exact (Nat.div_lt_iff_lt_mul hN).mpr hd
    · have h := Nat.div_add_mod d N
      unfold seqTargetCol
      rw [if_pos rfl, Nat.mul_comm (d / N) N]
      omega
  | false =>
    refine ⟨d / T, d % T, ?_, Nat.mod_lt d hT, ?_⟩
    · exact (Nat.div_lt_iff_lt_mul hT).mpr (Nat.mul_comm T N ▸ hd)
    · have h := Nat.div_add_mod d T
      unfold seqTargetCol
      rw [if_neg (by simp), Nat.mul_comm (d / T) T]
      omega

/-- Helper: `buildScatterIndices` is the live-sequence fold from the
all-unset index vector and the all-valid mask. -/
theorem buildScatterIndices_eq (l : MBLayoutM) (bm : Bool) :
    buildScatterIndices l bm =
      (((liveSeqs l).foldl
          (applySeqScatter l.numTimeSteps l.numParallelSequences
            l.numSequences bm)
          (List.replicate l.numCols Option.none,
           List.replicate (l.numSequences * l.numTimeSteps) true, 0)).1,
       ((liveSeqs l).foldl
          (applySeqScatter l.numTimeSteps l.numParallelSequences
            l.numSequences bm)
          (List.replicate l.numCols Option.none,
           List.replicate (l.numSequences * l.numTimeSteps) true, 0)).2.1) := by
  unfold buildScatterIndices
  rw [foldl_applySeqScatter_filter]
  rfl

/-- Helper: the live list of a layout has `numSequences` entries, all
live. -/
theorem liveSeqs_length (l : MBLayoutM) :
    (liveSeqs l).length = l.numSequences := rfl

theorem liveSeqs_all_live (l : MBLayoutM) :
    ∀ sq ∈ liveSeqs l, sq.seqId.isSome = true := by
  intro sq hm
  unfold liveSeqs at hm
  exact @List.of_mem_filter SeqInfo (fun sq => sq.seqId.isSome) sq
    l.sequences hm


/-- Helper: `findIdx?` finds an index satisfying the predicate inside
the list, measured from the start accumulator. -/
theorem findIdx?_some_spec {α : Type} (p : α → Bool) (dft : α) :
    ∀ (l : List α) (s i : Nat), l.findIdx? p s = some i →
      s ≤ i ∧ i - s < l.length ∧ p (l.getD (i - s) dft) = true := by
  intro l
  induction l with
  | nil =>
    intro s i h
    exact absurd h (by simp [List.findIdx?_nil])
  | cons a l ih =>
    intro s i h
    rw [List.findIdx?_cons] at h
    by_cases hpa : p a
    · rw [if_pos hpa] at h
      injection h with h
      subst h
      exact ⟨Nat.le_refl s, by simp, by simpa using hpa⟩
    · rw [if_neg hpa] at h
      obtain ⟨h1, h2, h3⟩ := ih (s + 1) i h
      refine ⟨by omega, by simp; omega, ?_⟩
      have he : i - s = (i - (s + 1)) + 1 := by omega
      rw [he]
      simpa using h3

/-- Helper: `findIdx?` succeeds when some member satisfies the
predicate. -/
theorem findIdx?_isSome_of_mem {α : Type} (p : α → Bool) :
    ∀ (l : List α) (x : α), x ∈ l → p x = true →
      ∀ s, ∃ i, l.findIdx? p s = some i := by
  intro l
  induction l with
  | nil => intro x hx; exact absurd hx (List.not_mem_nil x)
  | cons a l ih =>
    intro x hx hpx s
    rw [List.findIdx?_cons]
    by_cases hpa : p a
    · exact ⟨s, by rw [if_pos hpa]⟩
    · rcases List.mem_cons.mp hx with rfl | hx2
      · exact absurd hpx hpa
      · obtain ⟨i, hi⟩ := ih x hx2 hpx (s + 1)
        exact ⟨i, by rw [if_neg hpa]; exact hi⟩

/-- Helper: under the layout invariants (slots in range, no two live
sequences on one (slot, time) cell) the packed source columns of
distinct (sequence, time-step) pairs are distinct. -/
theorem scatterPos_inj (T P : Nat) (seqs : List SeqInfo)
    (hP : 0 < P)
    (hslot : ∀ n (hn : n < seqs.length), seqs[n].s < P)
    (hdisj : ∀ n (hn : n < seqs.length) n2 (hn2 : n2 < seqs.length),
      n ≠ n2 → ∀ t, t < T → seqs[n].s = seqs[n2].s →
      seqs[n].tBegin.toNat ≤ t → t < min T seqs[n].tEnd →
      ¬(seqs[n2].tBegin.toNat ≤ t ∧ t < min T seqs[n2].tEnd)) :
    ∀ n (hn : n < seqs.length) (j : Nat) n2 (hn2 : n2 < seqs.length)
      (j2 : Nat), j < seqLen T seqs[n] → j2 < seqLen T seqs[n2] →
      (n2 ≠ n ∨ j2 ≠ j) →
      seqSourceCol P seqs[n2] j2 ≠ seqSourceCol P seqs[n] j := by
  intro n hn j n2 hn2 j2 hj hj2 hne he
  unfold seqSourceCol at he
  unfold seqLen at hj hj2
  obtain ⟨hbeq, hseq⟩ := encode_inj P (seqs[n2].tBegin.toNat + j2)
    (seqs[n].tBegin.toNat + j) seqs[n2].s seqs[n].s
    (hslot n2 hn2) (hslot n hn) he
  by_cases hnn : n2 = n
  · subst hnn
    have hj2j : j2 = j := by omega
    rcases hne with h | h
    · exact h rfl
    · exact h hj2j
  · have hminle : min T seqs[n].tEnd ≤ T := Nat.min_le_left _ _
    exact hdisj n hn n2 hn2 (fun he2 => hnn he2.symm)
      (seqs[n].tBegin.toNat + j) (by omega) hseq.symm (by omega)
      (by omega) ⟨by omega, by omega⟩

/-- Helper: an in-range (sequence, time-step) source column lies inside
the packed column count `P * T`. -/
theorem scatterPos_lt (T P : Nat) (seqs : List SeqInfo)
    (hslot : ∀ n (hn : n < seqs.length), seqs[n].s < P) :
    ∀ n (hn : n < seqs.length) (j : Nat), j < seqLen T seqs[n] →
      seqSourceCol P seqs[n] j < P * T := by
  intro n hn j hj
  unfold seqLen at hj
  unfold seqSourceCol
  have h1 : min T seqs[n].tEnd ≤ T := Nat.min_le_left _ _
  exact encode_lt P (seqs[n].tBegin.toNat + j) seqs[n].s T
    (hslot n hn) (by omega)

/-- Helper: a destination cell lies inside the `N * T` unpacked
columns. -/
theorem seqTargetCol_lt (T N : Nat) (bm : Bool) (n j : Nat)
    (hn : n < N) (hj : j < T) : seqTargetCol T N bm n j < N * T := by
  unfold seqTargetCol
  cases bm with
  | true =>
    rw [if_pos rfl]
    exact encode_lt N j n T hn hj
  | false =>
    rw [if_neg (by simp), Nat.mul_comm N T]
    exact encode_lt T n j N hj hn

/-- Helper: lengths of the built scatter index vector and validity
mask. -/
theorem scatterFold_lengths (T P N : Nat) (bm : Bool)
    (seqs : List SeqInfo)
    (hlive : ∀ sq ∈ seqs, sq.seqId.isSome = true) :
    (seqs.foldl (applySeqScatter T P N bm)
        (List.replicate (P * T) Option.none,
         List.replicate (N * T) true, 0)).1.length = P * T ∧
    (seqs.foldl (applySeqScatter T P N bm)
        (List.replicate (P * T) Option.none,
         List.replicate (N * T) true, 0)).2.1.length = N * T := by
  obtain ⟨h1, h2, _⟩ := outerFold_state T P N bm seqs
    (List.replicate (P * T) Option.none, List.replicate (N * T) true, 0)
    hlive
  exact ⟨by simpa using h1, by simpa using h2⟩

/-- Helper: the built scatter index vector maps the source column of
every in-range time step of a live sequence to that sequence
destination cell. -/
theorem scatterFold_val (T P N : Nat) (bm : Bool) (seqs : List SeqInfo)
    (hlive : ∀ sq ∈ seqs, sq.seqId.isSome = true)
    (hP : 0 < P)
    (hslot : ∀ n (hn : n < seqs.length), seqs[n].s < P)
    (hdisj : ∀ n (hn : n < seqs.length) n2 (hn2 : n2 < seqs.length),
      n ≠ n2 → ∀ t, t < T → seqs[n].s = seqs[n2].s →
      seqs[n].tBegin.toNat ≤ t → t < min T seqs[n].tEnd →
      ¬(seqs[n2].tBegin.toNat ≤ t ∧ t < min T seqs[n2].tEnd)) :
    ∀ n (hn : n < seqs.length) (j : Nat), j < seqLen T seqs[n] →
      (seqs.foldl (applySeqScatter T P N bm)
          (List.replicate (P * T) Option.none,
           List.replicate (N * T) true, 0)).1.getD
          (seqSourceCol P seqs[n] j) Option.none
        = some (seqTargetCol T N bm n j) := by
  intro n hn j hj
  have hbound : seqSourceCol P seqs[n] j
      < (List.replicate (P * T) (Option.none : Option Nat)).length := by
    simpa using scatterPos_lt T P seqs hslot n hn j hj
  have huniq := fun n2 hn2 j2 hj2 hne =>
    scatterPos_inj T P seqs hP hslot hdisj n hn j n2 hn2 j2 hj hj2 hne
  have h := outerFold_idx_val T P N bm seqs
    (List.replicate (P * T) Option.none, List.replicate (N * T) true, 0)
    n hn j hlive hj hbound huniq
  simpa using h

/-- Helper: the built validity mask clears the destination cell of
every out-of-range time step of a live sequence. -/
theorem scatterFold_maskFalse (T P N : Nat) (bm : Bool)
    (seqs : List SeqInfo) (hN : seqs.length = N)
    (hlive : ∀ sq ∈ seqs, sq.seqId.isSome = true) :
    ∀ n (hn : n < seqs.length) (j : Nat), ¬ j < seqLen T seqs[n] →
      j < T →
      (seqs.foldl (applySeqScatter T P N bm)
          (List.replicate (P * T) Option.none,
           List.replicate (N * T) true, 0)).2.1.getD
          (seqTargetCol T N bm n j) true
        = false := by
  intro n hn j hnl hjT
  have hb : seqTargetCol T N bm
      ((List.replicate (P * T) (Option.none : Option Nat),
        List.replicate (N * T) true, (0 : Nat)).2.2 + n) j
      < (List.replicate (P * T) (Option.none : Option Nat),
        List.replicate (N * T) true, (0 : Nat)).2.1.length := by
    simpa using seqTargetCol_lt T N bm n j (hN ▸ hn) hjT
  have h := outerFold_mask_false T P N bm seqs
    (List.replicate (P * T) Option.none, List.replicate (N * T) true, 0)
    n hn j hlive hnl hjT hb
  simpa using h

/-- Helper: a scatter-index entry holding `some dd` was written by an
in-range time step of a live sequence with destination `dd`. -/
theorem scatterFold_writer (T P N : Nat) (bm : Bool)
    (seqs : List SeqInfo)
    (hlive : ∀ sq ∈ seqs, sq.seqId.isSome = true)
    (hP : 0 < P)
    (hslot : ∀ n (hn : n < seqs.length), seqs[n].s < P)
    (hdisj : ∀ n (hn : n < seqs.length) n2 (hn2 : n2 < seqs.length),
      n ≠ n2 → ∀ t, t < T → seqs[n].s = seqs[n2].s →
      seqs[n].tBegin.toNat ≤ t → t < min T seqs[n].tEnd →
      ¬(seqs[n2].tBegin.toNat ≤ t ∧ t < min T seqs[n2].tEnd)) :
    ∀ (k dd : Nat),
      (seqs.foldl (applySeqScatter T P N bm)
          (List.replicate (P * T) Option.none,
           List.replicate (N * T) true, 0)).1.getD k Option.none
        = some dd →
      ∃ n, ∃ hn : n < seqs.length, ∃ j, j < seqLen T seqs[n] ∧
        k = seqSourceCol P seqs[n] j ∧
        dd = seqTargetCol T N bm n j := by
  intro k dd hk
  rcases outerFold_idx_writer T P N bm seqs
      (List.replicate (P * T) Option.none,
       List.replicate (N * T) true, 0) k hlive with
    h | ⟨n, hn, j, hjl, hck⟩
  · rw [h] at hk
    simp [getD_replicate_self] at hk
  · refine ⟨n, hn, j, hjl, hck, ?_⟩
    have hvj := scatterFold_val T P N bm seqs hlive hP hslot hdisj
      n hn j hjl
    rw [hck] at hk
    injection hvj.symm.trans hk with h2
    exact h2.symm


/-- Helper: the validity mask keeps every targeted destination cell
valid: a cell held by some scatter-index entry reads `true` in the
built mask. -/
theorem scatterFold_maskTrue (T P N : Nat) (bm : Bool)
    (seqs : List SeqInfo) (hN : seqs.length = N)
    (hlive : ∀ sq ∈ seqs, sq.seqId.isSome = true)
    (hP : 0 < P)
    (hslot : ∀ n (hn : n < seqs.length), seqs[n].s < P)
    (hdisj : ∀ n (hn : n < seqs.length) n2 (hn2 : n2 < seqs.length),
      n ≠ n2 → ∀ t, t < T → seqs[n].s = seqs[n2].s →
      seqs[n].tBegin.toNat ≤ t → t < min T seqs[n].tEnd →
      ¬(seqs[n2].tBegin.toNat ≤ t ∧ t < min T seqs[n2].tEnd)) :
    ∀ (k dd : Nat),
      (seqs.foldl (applySeqScatter T P N bm)
          (List.replicate (P * T) Option.none,
           List.replicate (N * T) true, 0)).1.getD k Option.none
        = some dd →
      (seqs.foldl (applySeqScatter T P N bm)
          (List.replicate (P * T) Option.none,
           List.replicate (N * T) true, 0)).2.1.getD dd true
        = true := by
  intro k dd hk
  obtain ⟨n, hn, j, hjl, hck, hdd⟩ :=
    scatterFold_writer T P N bm seqs hlive hP hslot hdisj k dd hk
  rcases outerFold_mask_writer T P N bm seqs
      (List.replicate (P * T) Option.none,
       List.replicate (N * T) true, 0) dd hlive with
    h | ⟨n2, hn2, j2, hnl2, hjT2, hdd2⟩
  · rw [h]
    simp [getD_replicate_self]
  · exfalso
    have hdd2n : dd = seqTargetCol T N bm n2 j2 := by simpa using hdd2
    have hjT : j < T := by
      have hm := Nat.min_le_left T seqs[n].tEnd
      unfold seqLen at hjl
      omega
    obtain ⟨hn_eq, hj_eq⟩ := seqTargetCol_inj T N bm n j n2 j2
      (hN ▸ hn) (hN ▸ hn2) hjT hjT2 (hdd.symm.trans hdd2n)
    subst hn_eq
    subst hj_eq
    exact hnl2 hjl

/-- Helper: no two scatter-index entries hold the same destination
cell (`idxHaveDups = false`). -/
theorem scatterFold_uniq (T P N : Nat) (bm : Bool)
    (seqs : List SeqInfo) (hN : seqs.length = N)
    (hlive : ∀ sq ∈ seqs, sq.seqId.isSome = true)
    (hP : 0 < P)
    (hslot : ∀ n (hn : n < seqs.length), seqs[n].s < P)
    (hdisj : ∀ n (hn : n < seqs.length) n2 (hn2 : n2 < seqs.length),
      n ≠ n2 → ∀ t, t < T → seqs[n].s = seqs[n2].s →
      seqs[n].tBegin.toNat ≤ t → t < min T seqs[n].tEnd →
      ¬(seqs[n2].tBegin.toNat ≤ t ∧ t < min T seqs[n2].tEnd)) :
    ∀ (dd k k2 : Nat),
      (seqs.foldl (applySeqScatter T P N bm)
          (List.replicate (P * T) Option.none,
           List.replicate (N * T) true, 0)).1.getD k Option.none
        = some dd →
      (seqs.foldl (applySeqScatter T P N bm)
          (List.replicate (P * T) Option.none,
           List.replicate (N * T) true, 0)).1.getD k2 Option.none
        = some dd →
      k = k2 := by
  intro dd k k2 hk hk2
  obtain ⟨n, hn, j, hjl, hck, hdd⟩ :=
    scatterFold_writer T P N bm seqs hlive hP hslot hdisj k dd hk
  obtain ⟨n2, hn2, j2, hjl2, hck2, hdd2⟩ :=
    scatterFold_writer T P N bm seqs hlive hP hslot hdisj k2 dd hk2
  have hjT : j < T := by
    have hm := Nat.min_le_left T seqs[n].tEnd
    unfold seqLen at hjl
    omega
  have hjT2 : j2 < T := by
    have hm := Nat.min_le_left T seqs[n2].tEnd
    unfold seqLen at hjl2
    omega
  obtain ⟨hn_eq, hj_eq⟩ := seqTargetCol_inj T N bm n j n2 j2
    (hN ▸ hn) (hN ▸ hn2) hjT hjT2 (hdd.symm.trans hdd2)
  subst hn_eq
  subst hj_eq
  rw [hck, hck2]


/-- Helper: the general statement of the gap-pad property — for every
layout satisfying the sequence-table invariants of the spec (a positive
parallel-slot count, slot indices in range, and no two live sequences
occupying the same (slot, time) cell), on the scatter path of `Unpack`
with a non-zero gap-pad value every destination column targeted by the
built scatter index holds the corresponding packed source column and
every never-targeted destination column holds the pad value. -/
theorem unpack_gapPad_general (α : Type) [DecidableEq α]
    (l : MBLayoutM) (bm : Bool) (packed : List α) (zero v : α)
    (d : Nat) (hv : v ≠ zero)
    (hP : 0 < l.numParallelSequences)
    (hslot : ∀ n (hn : n < (liveSeqs l).length),
      (liveSeqs l)[n].s < l.numParallelSequences)
    (hdisj : ∀ n (hn : n < (liveSeqs l).length) n2
        (hn2 : n2 < (liveSeqs l).length),
      n ≠ n2 → ∀ t, t < l.numTimeSteps →
      (liveSeqs l)[n].s = (liveSeqs l)[n2].s →
      (liveSeqs l)[n].tBegin.toNat ≤ t →
      t < min l.numTimeSteps (liveSeqs l)[n].tEnd →
      ¬((liveSeqs l)[n2].tBegin.toNat ≤ t ∧
        t < min l.numTimeSteps (liveSeqs l)[n2].tEnd))
    (hd : d < l.numTimeSteps * l.numSequences) :
    (∀ k, (buildScatterIndices l bm).1.getD k Option.none = some d →
      (unpackGeneral l bm packed zero (some v)).getD d v
        = packed.getD k zero) ∧
    ((∀ k, k < (buildScatterIndices l bm).1.length →
        ¬ (buildScatterIndices l bm).1.getD k Option.none = some d) →
      (unpackGeneral l bm packed zero (some v)).getD d v = v) := by
  have hall := liveSeqs_all_live l
  have hN := liveSeqs_length l
  have hbuild1 : (buildScatterIndices l bm).1 = ((liveSeqs l).foldl (applySeqScatter l.numTimeSteps
      l.numParallelSequences l.numSequences bm)
      (List.replicate (l.numParallelSequences * l.numTimeSteps)
        Option.none,
       List.replicate (l.numSequences * l.numTimeSteps) true, 0)).1 := by
    rw [buildScatterIndices_eq]
    exact rfl
  have hbuild2 : (buildScatterIndices l bm).2 = ((liveSeqs l).foldl (applySeqScatter l.numTimeSteps
      l.numParallelSequences l.numSequences bm)
      (List.replicate (l.numParallelSequences * l.numTimeSteps)
        Option.none,
       List.replicate (l.numSequences * l.numTimeSteps) true, 0)).2.1 := by
    rw [buildScatterIndices_eq]
    exact rfl
  have hclen : (scatterColumns (l.numTimeSteps * l.numSequences)
      (buildScatterIndices l bm).1 packed zero).length
      = l.numTimeSteps * l.numSequences := by
    unfold scatterColumns
    simp
  constructor
  · intro k hk
    rw [hbuild1] at hk
    have hmask := scatterFold_maskTrue l.numTimeSteps l.numParallelSequences l.numSequences bm (liveSeqs l)
      hN hall hP hslot hdisj k d hk
    have hklen : k < ((liveSeqs l).foldl (applySeqScatter l.numTimeSteps
      l.numParallelSequences l.numSequences bm)
      (List.replicate (l.numParallelSequences * l.numTimeSteps)
        Option.none,
       List.replicate (l.numSequences * l.numTimeSteps) true, 0)).1.length := by
      by_contra hcon
      rw [List.getD_eq_getElem?_getD,
        List.getElem?_eq_none (by omega)] at hk
      exact absurd hk (by simp)
    have hmem : ((liveSeqs l).foldl (applySeqScatter l.numTimeSteps
      l.numParallelSequences l.numSequences bm)
      (List.replicate (l.numParallelSequences * l.numTimeSteps)
        Option.none,
       List.replicate (l.numSequences * l.numTimeSteps) true, 0)).1[k] ∈ ((liveSeqs l).foldl (applySeqScatter l.numTimeSteps
      l.numParallelSequences l.numSequences bm)
      (List.replicate (l.numParallelSequences * l.numTimeSteps)
        Option.none,
       List.replicate (l.numSequences * l.numTimeSteps) true, 0)).1 :=
      List.mem_iff_getElem.mpr ⟨k, hklen, rfl⟩
    have hpk : ((fun oi => oi == some d) (((liveSeqs l).foldl (applySeqScatter l.numTimeSteps
      l.numParallelSequences l.numSequences bm)
      (List.replicate (l.numParallelSequences * l.numTimeSteps)
        Option.none,
       List.replicate (l.numSequences * l.numTimeSteps) true, 0)).1[k])) = true := by
      show (((liveSeqs l).foldl (applySeqScatter l.numTimeSteps
      l.numParallelSequences l.numSequences bm)
      (List.replicate (l.numParallelSequences * l.numTimeSteps)
        Option.none,
       List.replicate (l.numSequences * l.numTimeSteps) true, 0)).1[k] == some d) = true
      rw [← getD_eq_getElem _ _ Option.none hklen, hk]
      exact beq_self_eq_true _
    obtain ⟨i, hi⟩ := findIdx?_isSome_of_mem (fun oi => oi == some d)
      ((liveSeqs l).foldl (applySeqScatter l.numTimeSteps
      l.numParallelSequences l.numSequences bm)
      (List.replicate (l.numParallelSequences * l.numTimeSteps)
        Option.none,
       List.replicate (l.numSequences * l.numTimeSteps) true, 0)).1 (((liveSeqs l).foldl (applySeqScatter l.numTimeSteps
      l.numParallelSequences l.numSequences bm)
      (List.replicate (l.numParallelSequences * l.numTimeSteps)
        Option.none,
       List.replicate (l.numSequences * l.numTimeSteps) true, 0)).1[k]) hmem hpk 0
    obtain ⟨_, hilen, hip⟩ := findIdx?_some_spec
      (fun oi => oi == some d) Option.none ((liveSeqs l).foldl (applySeqScatter l.numTimeSteps
      l.numParallelSequences l.numSequences bm)
      (List.replicate (l.numParallelSequences * l.numTimeSteps)
        Option.none,
       List.replicate (l.numSequences * l.numTimeSteps) true, 0)).1 0 i hi
    have hieq : ((liveSeqs l).foldl (applySeqScatter l.numTimeSteps
      l.numParallelSequences l.numSequences bm)
      (List.replicate (l.numParallelSequences * l.numTimeSteps)
        Option.none,
       List.replicate (l.numSequences * l.numTimeSteps) true, 0)).1.getD i Option.none = some d :=
      beq_iff_eq.mp (by simpa using hip)
    have hik : i = k := scatterFold_uniq l.numTimeSteps l.numParallelSequences l.numSequences bm (liveSeqs l)
      hN hall hP hslot hdisj d i k hieq hk
    simp only [unpackGeneral]
    rw [if_pos hv]
    unfold maskColumns
    rw [hclen, getD_range_map _ _ _ _ hd, hbuild2, hmask, if_pos rfl]
    unfold scatterColumns
    rw [getD_range_map _ _ _ _ hd, hbuild1, hi]
    show packed.getD i zero = packed.getD k zero
    rw [hik]
  · intro hnone
    simp only [hbuild1] at hnone
    obtain ⟨n, j, hnN, hjT, htgt⟩ := seqTargetCol_decode l.numTimeSteps
      l.numSequences bm d hd
    have hn : n < (liveSeqs l).length := by rw [hN]; exact hnN
    by_cases hjl : j < seqLen l.numTimeSteps (liveSeqs l)[n]
    · exfalso
      have hvj := scatterFold_val l.numTimeSteps l.numParallelSequences l.numSequences bm (liveSeqs l)
        hall hP hslot hdisj n hn j hjl
      rw [htgt] at hvj
      have hplt : seqSourceCol l.numParallelSequences (liveSeqs l)[n] j
          < ((liveSeqs l).foldl (applySeqScatter l.numTimeSteps
      l.numParallelSequences l.numSequences bm)
      (List.replicate (l.numParallelSequences * l.numTimeSteps)
        Option.none,
       List.replicate (l.numSequences * l.numTimeSteps) true, 0)).1.length := by
        rw [(scatterFold_lengths l.numTimeSteps l.numParallelSequences l.numSequences bm (liveSeqs l) hall).1]
        exact scatterPos_lt l.numTimeSteps l.numParallelSequences
          (liveSeqs l) hslot n hn j hjl
      exact hnone _ hplt hvj
    · have hmf := scatterFold_maskFalse l.numTimeSteps l.numParallelSequences l.numSequences bm (liveSeqs l)
        hN hall n hn j hjl hjT
      rw [htgt] at hmf
      simp only [unpackGeneral]
      rw [if_pos hv]
      unfold maskColumns
      rw [hclen, getD_range_map _ _ _ _ hd, hbuild2, hmf,
        if_neg (by simp)]


/-- C7: on the general (scatter) path of `Unpack` with a non-zero gap
pad value, for EVERY layout satisfying the sequence-table invariants
(positive parallel-slot count, slot indices in range, no two live
sequences sharing a (slot, time) cell) and either element order: every
destination column targeted by a live sequence scatter holds the
corresponding packed source column, and every destination column never
targeted holds the pad value; in particular, for two sequences of
lengths 3 and 2 in 2 parallel slots over 3 time steps (sequence-major,
which takes the scatter path), the single gap cell (slot 1, time 2 —
destination column 5) is `v` and all other cells are the source
values. -/
theorem unpack_gapPad_spec :
    (∀ (α : Type) [DecidableEq α]
       (l : MBLayoutM) (bm : Bool) (packed : List α) (zero v : α)
       (d : Nat), v ≠ zero →
       0 < l.numParallelSequences →
       (∀ n (hn : n < (liveSeqs l).length),
         (liveSeqs l)[n].s < l.numParallelSequences) →
       (∀ n (hn : n < (liveSeqs l).length) n2
           (hn2 : n2 < (liveSeqs l).length),
         n ≠ n2 → ∀ t, t < l.numTimeSteps →
         (liveSeqs l)[n].s = (liveSeqs l)[n2].s →
         (liveSeqs l)[n].tBegin.toNat ≤ t →
         t < min l.numTimeSteps (liveSeqs l)[n].tEnd →
         ¬((liveSeqs l)[n2].tBegin.toNat ≤ t ∧
           t < min l.numTimeSteps (liveSeqs l)[n2].tEnd)) →
       d < l.numTimeSteps * l.numSequences →
       (∀ k, (buildScatterIndices l bm).1.getD k Option.none = some d →
         (unpackGeneral l bm packed zero (some v)).getD d v
           = packed.getD k zero) ∧
       ((∀ k, k < (buildScatterIndices l bm).1.length →
           ¬ (buildScatterIndices l bm).1.getD k Option.none = some d) →
         (unpackGeneral l bm packed zero (some v)).getD d v = v)) ∧
    (∀ p0 p1 p2 p3 p4 p5 v : Int, v ≠ 0 →
       unpackUsesFastPath twoSeqLayout false = false ∧
       unpackGeneral twoSeqLayout false [p0, p1, p2, p3, p4, p5] 0 (some v)
         = [p0, p2, p4, p1, p3, v]) := by
  constructor
  · intro α instα l bm packed zero v d hv hP hslot hdisj hd
    exact unpack_gapPad_general α l bm packed zero v d hv hP hslot hdisj hd
  · intro p0 p1 p2 p3 p4 p5 v hv
    refine ⟨rfl, ?_⟩
    simp only [unpackGeneral]
    rw [if_pos hv]
    rfl

/-- Witness for C7: at the two-sequence layout the general clause gives
pad 7 at the gap column 5 and the packed source column 2 at the
targeted column 1, and the concrete instance evaluates fully. -/
theorem unpack_gapPad_spec_witness :
    (unpackGeneral twoSeqLayout false
        [(10 : Int), 11, 12, 13, 14, 15] 0 (some 7)).getD 5 7 = 7 ∧
    (unpackGeneral twoSeqLayout false
        [(10 : Int), 11, 12, 13, 14, 15] 0 (some 7)).getD 1 7
      = [(10 : Int), 11, 12, 13, 14, 15].getD 2 0 ∧
    unpackUsesFastPath twoSeqLayout false = false ∧
    unpackGeneral twoSeqLayout false [(10 : Int), 11, 12, 13, 14, 15] 0
        (some 7)
      = [10, 12, 14, 11, 13, 7] :=
  ⟨(unpack_gapPad_spec.1 Int twoSeqLayout false [10, 11, 12, 13, 14, 15]
      0 7 5 (by decide) (by decide) (by decide) (by decide)
      (by decide)).2 (by decide),
   (unpack_gapPad_spec.1 Int twoSeqLayout false [10, 11, 12, 13, 14, 15]
      0 7 1 (by decide) (by decide) (by decide) (by decide)
      (by decide)).1 2 (by decide),
   (unpack_gapPad_spec.2 10 11 12 13 14 15 7 (by decide)).1,
   (unpack_gapPad_spec.2 10 11 12 13 14 15 7 (by decide)).2⟩

end CNTK
